import Mathlib

/-!
Shallow embedding of the bundle-assembly core of the health-document
repository (two variants: the prescription-record builder in `src/App.js`
and the invoice-record builder of the second source file).

JavaScript strings are modelled as Lean `String`; absent / `undefined` /
falsy string fields are modelled as `""` (or `Option` where the code
distinguishes `undefined` from a string).  Random `uuidv4()` results are
supplied explicitly through an id-supply record, since the only property
the code relies on is their (probabilistic) freshness.
-/

/- ------------------------- JS string helpers ------------------------- -/

/-- The whitespace characters stripped by `String.prototype.trim`
(modelled by the common ASCII whitespace characters). -/
def jsWs (c : Char) : Bool :=
  c == ' ' || c == '\t' || c == '\n' || c == '\r'

/-- `String.prototype.trim`: strip leading and trailing whitespace. -/
def jsTrim (s : String) : String :=
  ⟨((s.data.dropWhile jsWs).reverse.dropWhile jsWs).reverse⟩

/-- `String.prototype.split` with a single-character separator. -/
def splitOnChar (c : Char) : List Char → List (List Char)
  | [] => [[]]
  | x :: xs =>
    let r := splitOnChar c xs
    if x == c then [] :: r
    else
      match r with
      | [] => [[x]]
      | h :: t => (x :: h) :: t

/-- `String.prototype.padStart(2, "0")`. -/
def jsPadStart2 (s : String) : String :=
  if 2 ≤ s.data.length then s else ⟨List.replicate (2 - s.data.length) '0' ++ s.data⟩

/-- `String.prototype.toLowerCase` (modelled per character). -/
def jsToLower (s : String) : String :=
  ⟨s.data.map Char.toLower⟩

/-- Everything after the first occurrence of `pat` in a character list
(`none` when `pat` does not occur), i.e. `indexOf` + `slice`. -/
def dropThroughSub (pat : List Char) : List Char → Option (List Char)
  | [] => none
  | c :: rest =>
    if pat.isPrefixOf (c :: rest) then some ((c :: rest).drop pat.length)
    else dropThroughSub pat rest

/- --------------------------- Date handling --------------------------- -/

/-- The regular expression test `/^\d{4}-\d{2}-\d{2}$/` used by both date
canonicalizers (`src/App.js` line 37, invoice variant line 17). -/
def matchesCanonicalDate (s : String) : Bool :=
  match s.data with
  | [y1, y2, y3, y4, h1, m1, m2, h2, d1, d2] =>
    y1.isDigit && y2.isDigit && y3.isDigit && y4.isDigit && h1 == '-' &&
    m1.isDigit && m2.isDigit && h2 == '-' && d1.isDigit && d2.isDigit
  | _ => false

/-- `ddmmyyyyToISO` (`src/App.js` lines 34-45): canonical `YYYY-MM-DD` is
returned unchanged; otherwise the string is split on `-` (or, failing
that, `/`), and three non-empty parts are reassembled as
`yyyy-mm-dd` with `padStart(2, "0")`; `none` models `undefined`. -/
def ddmmyyyyToISO (v : String) : Option String :=
  if v == "" then none
  else
    let s := jsTrim v
    if matchesCanonicalDate s then some s
    else
      let sep : Option Char :=
        if s.data.contains '-' then some '-'
        else if s.data.contains '/' then some '/' else none
      match sep with
      | none => none
      | some c =>
        match splitOnChar c s.data with
        | [dd, mm, yyyy] =>
          if dd.isEmpty || mm.isEmpty || yyyy.isEmpty then none
          else some ((⟨yyyy⟩ : String) ++ "-" ++ jsPadStart2 ⟨mm⟩ ++ "-" ++ jsPadStart2 ⟨dd⟩)
        | _ => none

/-- The match against `/^(\d{1,2})[-\/](\d{1,2})[-\/](\d{2,4})$/` in
`toFhirDate` (invoice variant line 18), returning the three groups. -/
def matchDMY (s : String) : Option (String × String × String) :=
  let l := s.data
  let d := l.takeWhile Char.isDigit
  let r1 := l.dropWhile Char.isDigit
  if d.length == 0 || 2 < d.length then none
  else
    match r1 with
    | [] => none
    | c1 :: r2 =>
      if !(c1 == '-' || c1 == '/') then none
      else
        let m := r2.takeWhile Char.isDigit
        let r3 := r2.dropWhile Char.isDigit
        if m.length == 0 || 2 < m.length then none
        else
          match r3 with
          | [] => none
          | c2 :: r4 =>
            if !(c2 == '-' || c2 == '/') then none
            else
              let y := r4.takeWhile Char.isDigit
              let r5 := r4.dropWhile Char.isDigit
              if y.length < 2 || 4 < y.length || !r5.isEmpty then none
              else some (⟨d⟩, ⟨m⟩, ⟨y⟩)

/-- `toFhirDate` (invoice variant lines 15-28).  The final fallback
`new Date(input)` / `toISOString().slice(0, 10)` is host-environment
behaviour and is abstracted as the `dateParse` parameter (`none` models
an invalid date). -/
def toFhirDate (dateParse : String → Option String) (input : String) : Option String :=
  if input == "" then none
  else if matchesCanonicalDate input then some input
  else
    match matchDMY input with
    | some (dd, mm, yy) =>
      let dd2 := jsPadStart2 dd
      let mm2 := jsPadStart2 mm
      let yy2 := if yy.length == 2 then "19" ++ yy else yy
      some (yy2 ++ "-" ++ mm2 ++ "-" ++ dd2)
    | none => dateParse input

/- ----------------------- ABHA address normalizer ----------------------- -/

/-- A normalized ABHA address entry `{value, label, primary}`. -/
structure AbhaEntry where
  value : String
  label : String
  primary : Bool
deriving DecidableEq

/-- One raw element of the `abha_addresses` array: `null`/`undefined`, a
plain string, or an object. For objects, `address = ""` models a
missing/falsy `address` field and `json` carries the (deterministic)
value of `JSON.stringify(item)` used by the fallback branch. -/
inductive AbhaItem where
  | null
  | str (s : String)
  | obj (address : String) (isPrimary : Bool) (json : String)
deriving DecidableEq

/-- One step of the `.map` inside `normalizeAbhaAddresses`
(`src/App.js` lines 119-130); `none` models entries dropped by
`.filter(Boolean)`. -/
def normalizeAbhaItem : AbhaItem → Option AbhaEntry
  | .null => none
  | .str s => some ⟨s, s, false⟩
  | .obj address isPrimary json =>
    if address != "" then
      some ⟨address, if isPrimary then address ++ " (primary)" else address, isPrimary⟩
    else some ⟨json, json, isPrimary⟩

/-- Code-point lexicographic order on character lists, modelling the
default-locale `String.prototype.localeCompare` on the ASCII addresses
involved (`a.value.localeCompare(b.value) <= 0`). -/
def lexLe : List Char → List Char → Bool
  | [], _ => true
  | _ :: _, [] => false
  | a :: as, b :: bs => if a == b then lexLe as bs else decide (a.toNat < b.toNat)

/-- `a.value.localeCompare(b.value) <= 0`, on `String`. -/
def jsStrLe (a b : String) : Bool := lexLe a.data b.data

/-- The sort comparator `(b.primary - a.primary) || a.value.localeCompare(b.value)`
(`src/App.js` line 132), as "a may come before b". -/
def abhaLe (a b : AbhaEntry) : Bool :=
  if a.primary == b.primary then jsStrLe a.value b.value else a.primary

/-- Stable insertion of `x` into an already sorted list: `x` goes before
the first element it compares less-or-equal to. -/
def stableInsert (le : α → α → Bool) (x : α) : List α → List α
  | [] => [x]
  | y :: ys => if le x y then x :: y :: ys else y :: stableInsert le x ys

/-- Stable insertion sort, modelling `Array.prototype.sort` (stable per
ES2019; for a consistent comparator the stable-sorted output is unique,
so any stable sorting algorithm models it faithfully). -/
def stableSort (le : α → α → Bool) : List α → List α
  | [] => []
  | x :: xs => stableInsert le x (stableSort le xs)

/-- The two places `normalizeAbhaAddresses` looks for the raw array:
`patientObj.additional_attributes.abha_addresses`, else
`patientObj.abha_addresses` (`none` models a missing/non-array field). -/
structure AbhaPatient where
  additional_abha : Option (List AbhaItem)
  abha_addresses : Option (List AbhaItem)

/-- `normalizeAbhaAddresses` (`src/App.js` lines 110-134). -/
def normalizeAbhaAddresses (p : AbhaPatient) : List AbhaEntry :=
  let raw : List AbhaItem :=
    match p.additional_abha with
    | some l => l
    | none =>
      match p.abha_addresses with
      | some l => l
      | none => []
  stableSort abhaLe (raw.filterMap normalizeAbhaItem)

/- ------------------------- quick sanity checks ------------------------- -/

example : ddmmyyyyToISO "25-12-1990" = some "1990-12-25" := by decide
example : ddmmyyyyToISO "1990-12-25" = some "1990-12-25" := by decide
example : ddmmyyyyToISO "not-a-date" = some "date-0a-not" := by decide
example : ddmmyyyyToISO "25-12-90" = some "90-12-25" := by decide
example : ddmmyyyyToISO "90-12-25" = some "25-12-90" := by decide
example : ddmmyyyyToISO "1/2/1990" = some "1990-02-01" := by decide
example : toFhirDate (fun _ => none) "25-12-90" = some "1990-12-25" := by decide
example : toFhirDate (fun _ => none) "not-a-date" = none := by decide
example : toFhirDate (fun _ => none) "1990-12-25" = some "1990-12-25" := by decide
example :
    (normalizeAbhaAddresses
      ⟨some [.str "a@x", .obj "b@x" true "j"], none⟩).map (fun e => (e.value, e.primary))
      = [("b@x", true), ("a@x", false)] := by decide

/- --------------------------- Files / attachments --------------------------- -/

/-- An uploaded `File` together with the outcome of `FileReader.readAsDataURL`:
`none` models a read error, `some res` the resulting `reader.result` string. -/
structure JsFile where
  name : String
  type : String
  readResult : Option String
deriving DecidableEq

/-- `PLACEHOLDER_PDF_B64` (`src/App.js` line 104). -/
def PLACEHOLDER_PDF_B64 : String := "JVBERi0xLjQKJeLjz9MK"

/-- The `onload` handler's stripping: everything after the first
`"base64,"` in `reader.result`, or the whole string when absent
(`src/App.js` lines 93-97). -/
def stripBase64Marker (res : String) : String :=
  match dropThroughSub "base64,".data res.data with
  | some rest => ⟨rest⟩
  | none => res

/-- `fileToBase64NoPrefix` (name as in `src/App.js` lines 89-101): rejects
with `Error("File read error")` on a reader error, otherwise resolves to
the stripped base64 payload. -/
def fileToBase64 (f : JsFile) : Except String String :=
  match f.readResult with
  | none => .error "File read error"
  | some res => .ok (stripBase64Marker res)

/- ------------------------------ Data model ------------------------------ -/

/-- A `DocumentReference.content[0].attachment`. -/
structure AttachmentR where
  contentType : String
  title : String
  url : String
deriving DecidableEq

/-- The FHIR resources built by either variant, keeping the fields the
spec's invariants are about (ids, references, payloads, metadata the UI
chooses); fixed narrative/meta/profile constants are omitted.
`attester` is a list of `(mode, party.reference)` pairs, `identifiers`
and `telecom` lists of `(system, value)` pairs. -/
inductive Resource where
  | composition (id status title date subject : String) (encounter : Option String)
      (author : String) (attester : List (String × String)) (custodian : Option String)
      (sectionEntries : List String)
  | patient (id : String) (identifiers : List (String × String)) (name : String)
      (gender : Option String) (birthDate : Option String)
      (telecom : List (String × String)) (address : Option String)
  | practitioner (id licenseValue name : String)
  | encounter (id subject periodStart periodEnd : String)
  | organization (id identifierValue name : String)
  | documentReference (id status subject date : String) (content : AttachmentR)
  | binary (id contentType data : String)
  | invoice (id status invNumber date subject recipient issuer : String)
deriving DecidableEq

/-- The resource's own `id`. -/
def Resource.rid : Resource → String
  | .composition i _ _ _ _ _ _ _ _ _ => i
  | .patient i _ _ _ _ _ _ => i
  | .practitioner i _ _ => i
  | .encounter i _ _ _ => i
  | .organization i _ _ => i
  | .documentReference i _ _ _ _ => i
  | .binary i _ _ => i
  | .invoice i _ _ _ _ _ _ => i

/-- The resource's `resourceType` string. -/
def Resource.rtype : Resource → String
  | .composition _ _ _ _ _ _ _ _ _ _ => "Composition"
  | .patient _ _ _ _ _ _ _ => "Patient"
  | .practitioner _ _ _ => "Practitioner"
  | .encounter _ _ _ _ => "Encounter"
  | .organization _ _ _ => "Organization"
  | .documentReference _ _ _ _ _ => "DocumentReference"
  | .binary _ _ _ => "Binary"
  | .invoice _ _ _ _ _ _ _ => "Invoice"

/-- Every reference string embedded in the resource: subject, encounter,
author, attester parties, custodian, section entries, recipient/issuer,
attachment url — exactly the `{ reference: ... }` / `attachment.url`
strings the source writes. -/
def Resource.refs : Resource → List String
  | .composition _ _ _ _ subj enc author att cust secs =>
    subj :: (enc.toList ++ [author] ++ att.map Prod.snd ++ cust.toList ++ secs)
  | .patient _ _ _ _ _ _ _ => []
  | .practitioner _ _ _ => []
  | .encounter _ subj _ _ => [subj]
  | .organization _ _ _ => []
  | .documentReference _ _ subj _ content => [subj, content.url]
  | .binary _ _ _ => []
  | .invoice _ _ _ _ subj recip issuer => [subj, recip, issuer]

/-- `urn:uuid:` local-reference scheme used for every fullUrl/reference. -/
def urn (s : String) : String := "urn:uuid:" ++ s

/-- One `Bundle.entry` element. -/
structure BundleEntry where
  fullUrl : String
  resource : Resource
deriving DecidableEq

/-- The assembled `Bundle` (entry list plus the metadata the code sets). -/
structure Bundle where
  id : String
  identifierValue : String
  btype : String
  timestamp : String
  entry : List BundleEntry
deriving DecidableEq

/- ------------------------- Build inputs (App.js) ------------------------- -/

/-- A patient record from the external patient list; `""` models a
missing/falsy field. -/
structure PatientRec where
  id : String
  user_ref_id : String
  mrn : String
  abha_ref : String
  name : String
  gender : String
  dob : String
  mobile : String
  email : String
  address : String
deriving DecidableEq

/-- The resolved practitioner `{id, name, license}`. -/
structure PractitionerInfo where
  id : String
  name : String
  license : String
deriving DecidableEq

/-- The UI state `onBuildBundle` reads (`src/App.js`): `authoredOn` is the
already-rendered `localDatetimeToISOWithOffset(dateTimeLocal)` and
`nowIso` the `isoWithLocalOffsetFromDate(new Date())` of the build
moment (wall-clock rendering is time/IO and enters only as a string). -/
structure BuildInputs where
  selectedPatient : Option PatientRec
  selectedAbha : String
  practitioner : PractitionerInfo
  status : String
  title : String
  encounterRefText : String
  custodianName : String
  attesterMode : String
  attesterPartyType : String
  attesterOrgName : String
  files : List JsFile
  authoredOn : String
  nowIso : String
deriving DecidableEq

/-- The fresh `uuidv4()` results the build draws, one field per draw site
(`binId i` / `docId i` are the per-attachment draws of line 336-337). -/
structure IdSupply where
  compId : String
  patientId : String
  encounterId : String
  custodianOrgId : String
  attesterOrgId : String
  practFallbackId : String
  binId : Nat → String
  docId : Nat → String
  bundleUuid : String
  identUuid : String

/- --------------------------- Resource builders --------------------------- -/

/-- `buildPatientResource` (`src/App.js` lines 340-365). -/
def buildPatientResource (p : PatientRec) (selectedAbha : String) (patientId : String) :
    Resource :=
  let mrn :=
    if p.mrn != "" then p.mrn
    else if p.user_ref_id != "" then p.user_ref_id
    else if p.abha_ref != "" then p.abha_ref
    else p.id
  let identifiers :=
    (if mrn != "" then [("https://healthid.ndhm.gov.in", mrn)] else []) ++
    (if p.abha_ref != "" then [("https://abdm.gov.in/abha", p.abha_ref)] else [])
  let telecom :=
    (if p.mobile != "" then [("phone", p.mobile)] else []) ++
    (if p.email != "" then [("email", p.email)] else []) ++
    (if selectedAbha != "" then [("url", "abha://" ++ selectedAbha)] else [])
  Resource.patient patientId identifiers p.name
    (if p.gender != "" then some (jsToLower p.gender) else none)
    (ddmmyyyyToISO p.dob)
    telecom
    (if p.address != "" then some p.address else none)

/-- `buildDocAndBinaryResources` (`src/App.js` lines 426-471): the loop
over `docsToProcess` (`none` = placeholder slot), drawing `binaryIds[i]`
and `docRefIds[i]`, with per-file defaults overridden when a file is
present; a failed read rejects the whole build. -/
def buildDocAndBinaryResources (authoredOn patientId : String) (binId docId : Nat → String) :
    Nat → List (Option JsFile) → Except String (List Resource × List Resource)
  | _, [] => .ok ([], [])
  | i, f? :: rest => do
    let (contentType, dataB64, t) ←
      match f? with
      | none => Except.ok ("application/pdf", PLACEHOLDER_PDF_B64, "placeholder.pdf")
      | some f => do
        let d ← fileToBase64 f
        Except.ok (if f.type != "" then f.type else "application/pdf", d,
          if f.name != "" then f.name else "placeholder.pdf")
    let (bins, drs) ← buildDocAndBinaryResources authoredOn patientId binId docId (i + 1) rest
    Except.ok (Resource.binary (binId i) contentType dataB64 :: bins,
      Resource.documentReference (docId i) "current" (urn patientId) authoredOn
        ⟨contentType, t, urn (binId i)⟩ :: drs)

/-- `buildCompositionResource` (`src/App.js` lines 474-513).  The object
literal assigns `attester` twice; the later
`attesterArr.length ? attesterArr : [default official practitioner]`
wins. -/
def buildCompositionResource (compId status title authoredOn patientId practId : String)
    (encounterReference custodianOrgId : Option String)
    (attesterMode attesterPartyType : String) (attesterOrgId : Option String)
    (docRefs : List Resource) : Resource :=
  let sectionEntries := docRefs.map (fun dr => urn dr.rid)
  let attesterArr : List (String × String) :=
    if attesterPartyType == "Practitioner" then [(attesterMode, urn practId)]
    else if attesterPartyType == "Organization" then
      match attesterOrgId with
      | some oid => [(attesterMode, urn oid)]
      | none => []
    else []
  let attester := if attesterArr.isEmpty then [("official", urn practId)] else attesterArr
  Resource.composition compId status title authoredOn (urn patientId) encounterReference
    (urn practId) attester (custodianOrgId.map urn) sectionEntries

/-- The bundle assembly of `onBuildBundle` after all resources exist
(`src/App.js` lines 558-583): fixed base entries, conditional pushes,
then all DocumentReferences, then all Binaries. -/
def assembleBundle (p : PatientRec) (inp : BuildInputs) (ids : IdSupply)
    (binaries docRefs : List Resource) : Bundle :=
  let patientRes := buildPatientResource p inp.selectedAbha ids.patientId
  let practId := if inp.practitioner.id != "" then inp.practitioner.id else ids.practFallbackId
  let practitionerRes := Resource.practitioner practId
    (if inp.practitioner.license != "" then inp.practitioner.license else "LIC-0000")
    (if inp.practitioner.name != "" then inp.practitioner.name else "Dr. ABC")
  let encounterId : Option String :=
    if inp.encounterRefText != "" then some ids.encounterId else none
  let custodianOrgId : Option String :=
    if inp.custodianName != "" then some ids.custodianOrgId else none
  let attesterOrgId : Option String :=
    if inp.attesterPartyType == "Organization" && inp.attesterOrgName != "" then
      some ids.attesterOrgId
    else none
  let encounterReference := encounterId.map urn
  let encounterRes : Option Resource := encounterId.map (fun eid =>
    Resource.encounter eid (urn ids.patientId) inp.nowIso inp.nowIso)
  let custodianRes : Option Resource := custodianOrgId.map (fun oid =>
    Resource.organization oid "HIP123456" inp.custodianName)
  let attesterOrgRes : Option Resource := attesterOrgId.map (fun oid =>
    Resource.organization oid "HIP123456" inp.attesterOrgName)
  let compositionRes := buildCompositionResource ids.compId inp.status inp.title inp.authoredOn
    ids.patientId practId encounterReference custodianOrgId
    inp.attesterMode inp.attesterPartyType attesterOrgId docRefs
  { id := "HealthDocumentBundle-" ++ ids.bundleUuid
    identifierValue := urn ids.identUuid
    btype := "document"
    timestamp := inp.nowIso
    entry :=
      [⟨urn compositionRes.rid, compositionRes⟩,
       ⟨urn patientRes.rid, patientRes⟩,
       ⟨urn practitionerRes.rid, practitionerRes⟩] ++
      (match encounterRes with | some r => [⟨urn r.rid, r⟩] | none => []) ++
      (match custodianRes with | some r => [⟨urn r.rid, r⟩] | none => []) ++
      (match attesterOrgRes with | some r => [⟨urn r.rid, r⟩] | none => []) ++
      docRefs.map (fun dr => ⟨urn dr.rid, dr⟩) ++
      binaries.map (fun b => ⟨urn b.rid, b⟩) }

/-- `docsToProcess` (`src/App.js` line 335): the uploaded files, or one
`null` placeholder slot when none were uploaded. -/
def docsToProcess (inp : BuildInputs) : List (Option JsFile) :=
  if inp.files.isEmpty then [none] else inp.files.map some

/-- `onBuildBundle` (`src/App.js` lines 310-600): required-input guards
(alert messages as `Except.error`), `docsToProcess`, attachment loop,
then assembly.  Submission over HTTP is outside the model. -/
def onBuildBundle (inp : BuildInputs) (ids : IdSupply) : Except String Bundle :=
  match inp.selectedPatient with
  | none => .error "Please select a patient (required)."
  | some p =>
    if inp.title == "" || jsTrim inp.title == "" then .error "Title is required."
    else if inp.status == "" then .error "Status is required."
    else
      match buildDocAndBinaryResources inp.authoredOn ids.patientId ids.binId ids.docId
          0 (docsToProcess inp) with
      | .error e => .error e
      | .ok (binaries, docRefs) => .ok (assembleBundle p inp ids binaries docRefs)

/- ---------------------- Invoice variant (buildBundle) ---------------------- -/

/-- UI state read by the invoice variant's `buildBundle` (lines 126-335 of
the second source file).  Monetary line items are floating-point and
claim-irrelevant, so the Invoice resource is modelled without amounts;
`nowIso` renders `new Date().toISOString()` and `nowTag` the
`Date.now()` used in the bundle identifier. -/
structure InvoiceInputs where
  selectedPatientIdx : Option Nat
  patients : List PatientRec
  selectedAbha : String
  practitioner : PractitionerInfo
  invoiceNumber : String
  invoiceDate : String
  invoiceType : String
  nowIso : String
  nowTag : String

/-- The fresh `uuidv4()` draws of the invoice variant's `buildBundle`. -/
structure InvIdSupply where
  patientId : String
  compId : String
  practitionerId : String
  orgId : String
  invoiceId : String
  bundleId : String

/-- `buildBundle` (invoice variant, lines 126-335): patient/ABHA guards,
then Patient, Practitioner, Organization, Invoice and Composition
resources and the five-entry document bundle.  `dateParse` is the host
date parser threaded to `toFhirDate`. -/
def buildBundle (dateParse : String → Option String) (inp : InvoiceInputs)
    (ids : InvIdSupply) : Except String Bundle :=
  match inp.selectedPatientIdx with
  | none => .error "Please select a patient first."
  | some idx =>
    match inp.patients.get? idx with
    | none => .error "Selected patient not found."
    | some selPatient =>
      if inp.selectedAbha == "" then .error "Please select an ABHA address for the patient."
      else
        let patientId :=
          if selPatient.user_ref_id != "" then jsToLower selPatient.user_ref_id
          else ids.patientId
        let practitionerId :=
          if inp.practitioner.id != "" then inp.practitioner.id else ids.practitionerId
        let patientResource := Resource.patient patientId
          [("http://terminology.hl7.org/CodeSystem/v2-0203",
            if selPatient.user_ref_id != "" then selPatient.user_ref_id
            else "mrn-" ++ selPatient.id),
           ("http://nrces.in/CodeSystem/identifier-type", inp.selectedAbha)]
          selPatient.name
          (if selPatient.gender != "" then some (jsToLower selPatient.gender) else none)
          (toFhirDate dateParse selPatient.dob)
          ((if selPatient.mobile != "" then [("phone", selPatient.mobile)] else []) ++
           (if selPatient.email != "" then [("email", selPatient.email)] else []))
          (if selPatient.address != "" then some selPatient.address else none)
        let practitionerResource := Resource.practitioner practitionerId
          inp.practitioner.license
          (if inp.practitioner.name != "" then inp.practitioner.name
           else "Unknown Practitioner")
        let organizationResource :=
          Resource.organization ids.orgId "ORG-001" "Issuer Organization"
        let invoiceResource := Resource.invoice ids.invoiceId "issued"
          (if inp.invoiceNumber != "" then inp.invoiceNumber else "INV-" ++ ids.invoiceId)
          (if inp.invoiceDate != "" then inp.invoiceDate else inp.nowIso)
          (urn patientId) (urn patientId) (urn ids.orgId)
        let compositionResource := Resource.composition ids.compId "final"
          ("Invoice " ++ inp.invoiceNumber) inp.nowIso (urn patientId) none
          (urn practitionerId) [("official", urn practitionerId)] none
          [urn ids.invoiceId]
        .ok { id := ids.bundleId
              identifierValue := "invoice-bundle-" ++ inp.nowTag
              btype := "document"
              timestamp := inp.nowIso
              entry :=
                [⟨urn ids.compId, compositionResource⟩,
                 ⟨urn patientId, patientResource⟩,
                 ⟨urn practitionerId, practitionerResource⟩,
                 ⟨urn ids.orgId, organizationResource⟩,
                 ⟨urn ids.invoiceId, invoiceResource⟩] }

/- ------------------------ Bundle-level properties ------------------------ -/

/-- Every reference embedded anywhere in the bundle matches the `fullUrl`
of exactly one entry. -/
def resolvable (b : Bundle) : Prop :=
  ∀ e ∈ b.entry, ∀ r ∈ e.resource.refs, b.entry.countP (fun e2 => e2.fullUrl == r) = 1

/-- No two entries carry the same resource id. -/
def nodupIds (b : Bundle) : Prop :=
  (b.entry.map (fun e => e.resource.rid)).Nodup

/-- The resource ids a successful `onBuildBundle` run stamps on its
entries, in entry order (the freshness of these `uuidv4` draws is the
hypothesis under which the bundle invariants hold). -/
def usedIds (inp : BuildInputs) (ids : IdSupply) : List String :=
  let practId := if inp.practitioner.id != "" then inp.practitioner.id else ids.practFallbackId
  let n := if inp.files.isEmpty then 1 else inp.files.length
  [ids.compId, ids.patientId, practId] ++
  (if inp.encounterRefText != "" then [ids.encounterId] else []) ++
  (if inp.custodianName != "" then [ids.custodianOrgId] else []) ++
  (if inp.attesterPartyType == "Organization" && inp.attesterOrgName != "" then
    [ids.attesterOrgId] else []) ++
  (List.range n).map ids.docId ++
  (List.range n).map ids.binId

/-- The resource ids a successful invoice `buildBundle` run stamps on its
five entries, in entry order. -/
def invUsedIds (inp : InvoiceInputs) (ids : InvIdSupply) : List String :=
  let patientId :=
    match inp.selectedPatientIdx.bind (fun idx => inp.patients.get? idx) with
    | some selPatient =>
      if selPatient.user_ref_id != "" then jsToLower selPatient.user_ref_id
      else ids.patientId
    | none => ids.patientId
  [ids.compId, patientId,
   (if inp.practitioner.id != "" then inp.practitioner.id else ids.practitionerId),
   ids.orgId, ids.invoiceId]

/- --------------------------- Generic list lemmas --------------------------- -/

theorem mem_stableInsert (le : α → α → Bool) (x z : α) :
    ∀ l : List α, z ∈ stableInsert le x l ↔ z = x ∨ z ∈ l := by
  intro l
  induction l with
  | nil => simp [stableInsert]
  | cons y ys ih =>
    by_cases h : le x y = true
    · simp [stableInsert, h, List.mem_cons]
    · simp only [stableInsert, h, if_neg, List.mem_cons, ih, Bool.not_eq_true]
      tauto

theorem pairwise_stableInsert (le : α → α → Bool)
    (htot : ∀ a b, le a b = true ∨ le b a = true)
    (htrans : ∀ a b c, le a b = true → le b c = true → le a c = true) (x : α) :
    ∀ l : List α, l.Pairwise (fun a b => le a b = true) →
      (stableInsert le x l).Pairwise (fun a b => le a b = true) := by
  intro l
  induction l with
  | nil => intro _; simp [stableInsert]
  | cons y ys ih =>
    intro h
    rcases List.pairwise_cons.mp h with ⟨hy, hys⟩
    by_cases hxy : le x y = true
    · simp only [stableInsert, hxy, if_pos]
      refine List.pairwise_cons.mpr ⟨?_, h⟩
      intro z hz
      rcases List.mem_cons.mp hz with rfl | hz2
      · exact hxy
      · exact htrans x y z hxy (hy z hz2)
    · simp only [stableInsert, hxy, if_neg]
      refine List.pairwise_cons.mpr ⟨?_, ih hys⟩
      intro z hz
      rcases (mem_stableInsert le x z ys).mp hz with rfl | hz2
      · rcases htot z y with h1 | h1
        · exact absurd h1 hxy
        · exact h1
      · exact hy z hz2

theorem pairwise_stableSort (le : α → α → Bool)
    (htot : ∀ a b, le a b = true ∨ le b a = true)
    (htrans : ∀ a b c, le a b = true → le b c = true → le a c = true) :
    ∀ l : List α, (stableSort le l).Pairwise (fun a b => le a b = true) := by
  intro l
  induction l with
  | nil => simp [stableSort]
  | cons x xs ih => exact pairwise_stableInsert le htot htrans x _ ih

theorem takeWhile_all_app {p : α → Bool} :
    ∀ (l1 : List α) (c : α) (l2 : List α), (∀ x ∈ l1, p x = true) → p c = false →
      (l1 ++ c :: l2).takeWhile p = l1 ∧ (l1 ++ c :: l2).dropWhile p = c :: l2 := by
  intro l1
  induction l1 with
  | nil =>
    intro c l2 _ hc
    simp [List.takeWhile, List.dropWhile, hc]
  | cons a as ih =>
    intro c l2 h hc
    have ha : p a = true := h a (List.mem_cons_self a as)
    have := ih c l2 (fun x hx => h x (List.mem_cons_of_mem a hx)) hc
    simp [List.takeWhile, List.dropWhile, ha, this.1, this.2]

theorem takeWhile_all {p : α → Bool} :
    ∀ l : List α, (∀ x ∈ l, p x = true) →
      l.takeWhile p = l ∧ l.dropWhile p = [] := by
  intro l
  induction l with
  | nil => simp
  | cons a as ih =>
    intro h
    have ha : p a = true := h a (List.mem_cons_self a as)
    have := ih (fun x hx => h x (List.mem_cons_of_mem a hx))
    simp [List.takeWhile, List.dropWhile, ha, this.1, this.2]

/- ----------------------- Order facts for the ABHA sort ----------------------- -/

theorem lexLe_total : ∀ l1 l2 : List Char, lexLe l1 l2 = true ∨ lexLe l2 l1 = true := by
  intro l1
  induction l1 with
  | nil => intro l2; left; rfl
  | cons a as ih =>
    intro l2
    cases l2 with
    | nil => right; rfl
    | cons b bs =>
      by_cases hab : a = b
      · subst hab
        simpa [lexLe] using ih bs
      · have hv : a.toNat ≠ b.toNat := by
          intro hv
          exact hab (Char.ext (UInt32.ext hv))
        rcases Nat.lt_or_ge a.toNat b.toNat with h1 | h1
        · left; simp [lexLe, hab, h1]
        · right
          have hba : ¬ b = a := fun h => hab h.symm
          have h2 : b.toNat < a.toNat := lt_of_le_of_ne h1 (fun h => hv h.symm)
          simp [lexLe, hba, h2]

theorem lexLe_cons_eq {a b : Char} (as bs : List Char) (h : a = b) :
    lexLe (a :: as) (b :: bs) = lexLe as bs := by
  simp [lexLe, h]

theorem lexLe_cons_ne {a b : Char} (as bs : List Char) (h : ¬ a = b) :
    lexLe (a :: as) (b :: bs) = decide (a.toNat < b.toNat) := by
  simp [lexLe, h]

theorem lexLe_trans :
    ∀ l1 l2 l3 : List Char, lexLe l1 l2 = true → lexLe l2 l3 = true →
      lexLe l1 l3 = true := by
  intro l1
  induction l1 with
  | nil => intro l2 l3 _ _; rfl
  | cons a as ih =>
    intro l2 l3 h12 h23
    cases l2 with
    | nil => simp [lexLe] at h12
    | cons b bs =>
      cases l3 with
      | nil => simp [lexLe] at h23
      | cons c cs =>
        by_cases hab : a = b
        · subst hab
          rw [lexLe_cons_eq as bs rfl] at h12
          by_cases hbc : a = c
          · subst hbc
            rw [lexLe_cons_eq bs cs rfl] at h23
            rw [lexLe_cons_eq as cs rfl]
            exact ih bs cs h12 h23
          · rw [lexLe_cons_ne bs cs hbc] at h23
            rw [lexLe_cons_ne as cs hbc]
            exact h23
        · rw [lexLe_cons_ne as bs hab] at h12
          have h12' : a.toNat < b.toNat := of_decide_eq_true h12
          by_cases hbc : b = c
          · subst hbc
            rw [lexLe_cons_ne as cs hab]
            exact h12
          · rw [lexLe_cons_ne bs cs hbc] at h23
            have h23' : b.toNat < c.toNat := of_decide_eq_true h23
            have hac : a.toNat < c.toNat := Nat.lt_trans h12' h23'
            have hne : ¬ a = c := by
              intro h
              subst h
              exact absurd hac (Nat.lt_irrefl _)
            rw [lexLe_cons_ne as cs hne]
            exact decide_eq_true hac

theorem abhaLe_total : ∀ a b : AbhaEntry, abhaLe a b = true ∨ abhaLe b a = true := by
  intro a b
  unfold abhaLe jsStrLe
  cases ha : a.primary <;> cases hb : b.primary <;>
    simp_all [lexLe_total a.value.data b.value.data]

theorem abhaLe_trans :
    ∀ a b c : AbhaEntry, abhaLe a b = true → abhaLe b c = true → abhaLe a c = true := by
  intro a b c h1 h2
  unfold abhaLe jsStrLe at h1 h2 ⊢
  cases ha : a.primary <;> cases hb : b.primary <;> cases hc : c.primary <;>
    simp_all
  · exact lexLe_trans _ _ _ h1 h2
  · exact lexLe_trans _ _ _ h1 h2

/- ------------------------- Date canonicalizer facts ------------------------- -/

theorem digit_not_ws (c : Char) (h : c.isDigit = true) : jsWs c = false := by
  by_cases h1 : c = ' '
  · subst h1; exact absurd h (by decide)
  · by_cases h2 : c = '\t'
    · subst h2; exact absurd h (by decide)
    · by_cases h3 : c = '\n'
      · subst h3; exact absurd h (by decide)
      · by_cases h4 : c = '\r'
        · subst h4; exact absurd h (by decide)
        · simp [jsWs, h1, h2, h3, h4]

theorem canonical_data_length (s : String) (h : matchesCanonicalDate s = true) :
    s.data.length = 10 := by
  unfold matchesCanonicalDate at h
  split at h
  · next y1 y2 y3 y4 h1 m1 m2 h2 d1 d2 heq =>
    rw [heq]
    rfl
  · simp at h

theorem jsTrim_of_ends (y : String) (c1 c2 : Char) (l : List Char)
    (heq : y.data = c1 :: (l ++ [c2])) (h1 : jsWs c1 = false) (h2 : jsWs c2 = false) :
    jsTrim y = y := by
  have core : ((y.data.dropWhile jsWs).reverse.dropWhile jsWs).reverse = y.data := by
    rw [heq]
    simp [List.dropWhile_cons, h1, h2, List.reverse_append]
  show (⟨((y.data.dropWhile jsWs).reverse.dropWhile jsWs).reverse⟩ : String) = y
  rw [core]

theorem canonical_jsTrim (y : String) (h : matchesCanonicalDate y = true) : jsTrim y = y := by
  unfold matchesCanonicalDate at h
  split at h
  · next y1 y2 y3 y4 h1 m1 m2 h2 d1 d2 heq =>
    simp only [Bool.and_eq_true, beq_iff_eq] at h
    obtain ⟨⟨⟨⟨⟨⟨⟨⟨⟨hy1, hy2⟩, hy3⟩, hy4⟩, hh1⟩, hm1⟩, hm2⟩, hh2⟩, hd1⟩, hd2⟩ := h
    exact jsTrim_of_ends y y1 d2 [y2, y3, y4, h1, m1, m2, h2, d1] heq
      (digit_not_ws y1 hy1) (digit_not_ws d2 hd2)
  · simp at h

theorem matchDMY_of_parts (d m y : List Char) (c1 c2 : Char)
    (hd : ∀ x ∈ d, x.isDigit = true) (hd1 : 1 ≤ d.length) (hd2 : d.length ≤ 2)
    (hm : ∀ x ∈ m, x.isDigit = true) (hm1 : 1 ≤ m.length) (hm2 : m.length ≤ 2)
    (hy : ∀ x ∈ y, x.isDigit = true) (hy2 : 2 ≤ y.length) (hy4 : y.length ≤ 4)
    (hc1 : c1 = '-' ∨ c1 = '/') (hc2 : c2 = '-' ∨ c2 = '/') :
    matchDMY ⟨d ++ c1 :: (m ++ c2 :: y)⟩ = some (⟨d⟩, ⟨m⟩, ⟨y⟩) := by
  have hc1d : c1.isDigit = false := by rcases hc1 with h | h <;> subst h <;> decide
  have hc2d : c2.isDigit = false := by rcases hc2 with h | h <;> subst h <;> decide
  have hc1ok : (!(c1 == '-' || c1 == '/')) = false := by
    rcases hc1 with h | h <;> subst h <;> decide
  have hc2ok : (!(c2 == '-' || c2 == '/')) = false := by
    rcases hc2 with h | h <;> subst h <;> decide
  have h1 := takeWhile_all_app d c1 (m ++ c2 :: y) hd hc1d
  have h2 := takeWhile_all_app m c2 y hm hc2d
  have h3 := takeWhile_all y hy
  have hcondD : (d.length == 0 || decide (2 < d.length)) = false := by
    have hA : (d.length == 0) = false := beq_eq_false_iff_ne.mpr (by omega)
    have hB : decide (2 < d.length) = false := decide_eq_false (by omega)
    rw [hA, hB]
    rfl
  have hcondM : (m.length == 0 || decide (2 < m.length)) = false := by
    have hA : (m.length == 0) = false := beq_eq_false_iff_ne.mpr (by omega)
    have hB : decide (2 < m.length) = false := decide_eq_false (by omega)
    rw [hA, hB]
    rfl
  unfold matchDMY
  have hA : decide (y.length < 2) = false := decide_eq_false (by omega)
  have hB : decide (4 < y.length) = false := decide_eq_false (by omega)
  simp only [h1.1, h1.2, h2.1, h2.2, h3.1, h3.2, hcondD, hcondM,
    hc1ok, hc2ok, Bool.false_eq_true, if_false, List.isEmpty_nil, hA, hB]
  simp

/- ----------------------------- Claims C5-C7, C10 ----------------------------- -/

/-- Claim C5: the spec's three date-canonicalizer equations.  They hold of
the invoice variant's `toFhirDate` (for `"not-a-date"` under the
host-parser fact that `new Date("not-a-date")` is invalid, i.e.
`dateParse "not-a-date" = none`), but the `src/App.js` canonicalizer
`ddmmyyyyToISO` violates the third: on `"not-a-date"` it returns
`some "date-0a-not"` instead of the absent value its own doc comment
("else return undefined") and the spec promise, because it splits on `-`
without validating digits. -/
theorem claim_C5 :
    ddmmyyyyToISO "25-12-1990" = some "1990-12-25" ∧
    ddmmyyyyToISO "1990-12-25" = some "1990-12-25" ∧
    ddmmyyyyToISO "not-a-date" = some "date-0a-not" ∧
    (∀ dateParse, toFhirDate dateParse "25-12-1990" = some "1990-12-25" ∧
      toFhirDate dateParse "1990-12-25" = some "1990-12-25" ∧
      toFhirDate dateParse "not-a-date" = dateParse "not-a-date") ∧
    toFhirDate (fun _ => none) "not-a-date" = none := by
  refine ⟨by decide, by decide, by decide, ?_, by decide⟩
  intro dp
  exact ⟨rfl, rfl, rfl⟩

/-- Claim C6: `normalizeAbhaAddresses` is deterministic (it is a function
of the patient value), its output is sorted primary-first with ties
broken lexicographically by value, and on the spec's example input
`["a@x", {address: "b@x", isPrimary: true}]` (in either of the two
places the code reads the raw list from) it yields
`[{value: "b@x", primary: true}, {value: "a@x", primary: false}]`. -/
theorem claim_C6 :
    ((normalizeAbhaAddresses ⟨some [.str "a@x", .obj "b@x" true "jb"], none⟩).map
        (fun e => (e.value, e.primary)) = [("b@x", true), ("a@x", false)] ∧
      (normalizeAbhaAddresses ⟨none, some [.str "a@x", .obj "b@x" true "jb"]⟩).map
        (fun e => (e.value, e.primary)) = [("b@x", true), ("a@x", false)]) ∧
    ∀ p : AbhaPatient,
      (normalizeAbhaAddresses p).Pairwise (fun a b => abhaLe a b = true) := by
  refine ⟨⟨by decide, by decide⟩, ?_⟩
  intro p
  unfold normalizeAbhaAddresses
  exact pairwise_stableSort abhaLe abhaLe_total abhaLe_trans _

/-- Claim C7 counterexample: `ddmmyyyyToISO` is not idempotent.  On the
date-like two-digit-year input `"25-12-90"` it yields `"90-12-25"`, and
re-canonicalizing that yields `"25-12-90"` again, so the second
application is not a no-op. -/
theorem claim_C7_counterexample :
    ddmmyyyyToISO "25-12-90" = some "90-12-25" ∧
    ddmmyyyyToISO "90-12-25" = some "25-12-90" ∧
    ¬ (∀ x y, ddmmyyyyToISO x = some y → ddmmyyyyToISO y = ddmmyyyyToISO x) := by
  refine ⟨by decide, by decide, ?_⟩
  intro h
  have h2 := h "25-12-90" "90-12-25" (by decide)
  rw [show ddmmyyyyToISO "90-12-25" = some "25-12-90" from by decide,
    show ddmmyyyyToISO "25-12-90" = some "90-12-25" from by decide] at h2
  exact absurd h2 (by decide)

/-- Claim C7 (amended): the canonicalizer is a no-op on already-canonical
`YYYY-MM-DD` output, so `ddmmyyyyToISO` is idempotent on every input
whose canonicalization matches `YYYY-MM-DD` (in particular on proper
`DD-MM-YYYY` / `DD/MM/YYYY` and canonical inputs); idempotence fails
only for degenerate part widths, e.g. two-digit years
(`claim_C7_counterexample`). -/
theorem claim_C7 :
    ∀ x y, ddmmyyyyToISO x = some y → matchesCanonicalDate y = true →
      ddmmyyyyToISO y = ddmmyyyyToISO x := by
  intro x y hxy hcan
  rw [hxy]
  have hy10 : y.data.length = 10 := canonical_data_length y hcan
  have hyne : (y == "") = false := by
    refine beq_eq_false_iff_ne.mpr ?_
    intro h
    subst h
    simp at hy10
  have htrim : jsTrim y = y := canonical_jsTrim y hcan
  simp [ddmmyyyyToISO, hyne, htrim, hcan]

/-- Claim C7 witness: instantiating the amended idempotence at
`"25-12-1990"`. -/
theorem claim_C7_witness :
    ddmmyyyyToISO "1990-12-25" = ddmmyyyyToISO "25-12-1990" :=
  claim_C7 "25-12-1990" "1990-12-25" (by decide) (by decide)

/-- Claim C10: the invoice variant's `toFhirDate` expands a two-digit year
by prefixing `"19"`: every `d[d]-m[m]-yy` input (with `-` or `/`
separators) maps to `19yy-mm-dd` with zero-padded day and month,
independently of the host date parser. -/
theorem claim_C10 :
    ∀ (dateParse : String → Option String) (d m y : List Char) (c1 c2 : Char),
    (∀ x ∈ d, x.isDigit = true) → 1 ≤ d.length → d.length ≤ 2 →
    (∀ x ∈ m, x.isDigit = true) → 1 ≤ m.length → m.length ≤ 2 →
    (∀ x ∈ y, x.isDigit = true) → y.length = 2 →
    (c1 = '-' ∨ c1 = '/') → (c2 = '-' ∨ c2 = '/') →
    toFhirDate dateParse ⟨d ++ c1 :: (m ++ c2 :: y)⟩ =
      some (("19" ++ (⟨y⟩ : String)) ++ "-" ++ jsPadStart2 ⟨m⟩ ++ "-" ++ jsPadStart2 ⟨d⟩) := by
  intro dp d m y c1 c2 hd hd1 hd2 hm hm1 hm2 hy hylen hc1 hc2
  have hne : ((⟨d ++ c1 :: (m ++ c2 :: y)⟩ : String) == "") = false := by
    refine beq_eq_false_iff_ne.mpr ?_
    intro h
    have hdat : d ++ c1 :: (m ++ c2 :: y) = [] := congrArg String.data h
    simp at hdat
  have hcanon : matchesCanonicalDate ⟨d ++ c1 :: (m ++ c2 :: y)⟩ = false := by
    by_contra hx
    have hx' : matchesCanonicalDate ⟨d ++ c1 :: (m ++ c2 :: y)⟩ = true := by
      simpa using hx
    have hlen := canonical_data_length _ hx'
    simp [List.length_append] at hlen
    omega
  have hmatch := matchDMY_of_parts d m y c1 c2 hd hd1 hd2 hm hm1 hm2 hy
    (by omega) (by omega) hc1 hc2
  have hyl : (((⟨y⟩ : String)).length == 2) = true := by
    have : (⟨y⟩ : String).length = y.length := rfl
    rw [this, hylen]
    rfl
  simp only [toFhirDate, hne, hcanon, hmatch, Bool.false_eq_true, if_false, hyl, if_true]

/-- Claim C10 witness: `toFhirDate` on `"25-12-90"` (with any host parser
behaviour, e.g. the always-invalid one) gives `"1990-12-25"`. -/
theorem claim_C10_witness :
    toFhirDate (fun _ => none) "25-12-90" = some "1990-12-25" := by
  have h := claim_C10 (fun _ => none) ['2', '5'] ['1', '2'] ['9', '0'] '-' '-'
    (by decide) (by decide) (by decide) (by decide) (by decide) (by decide)
    (by decide) (by decide) (by decide) (by decide)
  exact h

/- ------------------- Attachment loop: closed-form results ------------------- -/

/-- The payload `fileToBase64NoPrefix` resolves to when the read succeeds. -/
def readData (f : JsFile) : String := stripBase64Marker (f.readResult.getD "")

/-- Closed form of one loop iteration's Binary resource (all reads ok). -/
def mkBinarySpec (f? : Option JsFile) (bid : String) : Resource :=
  match f? with
  | none => .binary bid "application/pdf" PLACEHOLDER_PDF_B64
  | some f => .binary bid (if f.type != "" then f.type else "application/pdf") (readData f)

/-- Closed form of one loop iteration's DocumentReference resource. -/
def mkDocRefSpec (f? : Option JsFile) (did bid authoredOn patientId : String) : Resource :=
  .documentReference did "current" (urn patientId) authoredOn
    ⟨(match f? with
      | none => "application/pdf"
      | some f => if f.type != "" then f.type else "application/pdf"),
      (match f? with
      | none => "placeholder.pdf"
      | some f => if f.name != "" then f.name else "placeholder.pdf"),
      urn bid⟩

theorem buildDocs_cons_none (a pid : String) (bi di : Nat → String) (i : Nat)
    (rest : List (Option JsFile)) :
    buildDocAndBinaryResources a pid bi di i (none :: rest) =
      match buildDocAndBinaryResources a pid bi di (i + 1) rest with
      | .error e => .error e
      | .ok (bins, drs) =>
        .ok (mkBinarySpec none (bi i) :: bins,
          mkDocRefSpec none (di i) (bi i) a pid :: drs) := by
  cases hrec : buildDocAndBinaryResources a pid bi di (i + 1) rest with
  | error e =>
    simp only [buildDocAndBinaryResources, Bind.bind, Except.bind]
    rw [hrec]
  | ok pr =>
    obtain ⟨bins, drs⟩ := pr
    simp only [buildDocAndBinaryResources, Bind.bind, Except.bind]
    rw [hrec]
    simp [mkBinarySpec, mkDocRefSpec]

theorem buildDocs_cons_some (a pid : String) (bi di : Nat → String) (i : Nat)
    (f : JsFile) (rest : List (Option JsFile)) :
    buildDocAndBinaryResources a pid bi di i (some f :: rest) =
      match f.readResult with
      | none => .error "File read error"
      | some _ =>
        match buildDocAndBinaryResources a pid bi di (i + 1) rest with
        | .error e => .error e
        | .ok (bins, drs) =>
          .ok (mkBinarySpec (some f) (bi i) :: bins,
            mkDocRefSpec (some f) (di i) (bi i) a pid :: drs) := by
  cases hr : f.readResult with
  | none =>
    simp only [buildDocAndBinaryResources, Bind.bind, Except.bind, fileToBase64]
    rw [hr]
  | some res =>
    cases hrec : buildDocAndBinaryResources a pid bi di (i + 1) rest with
    | error e =>
      simp only [buildDocAndBinaryResources, Bind.bind, Except.bind, fileToBase64]
      rw [hr, hrec]
    | ok pr =>
      obtain ⟨bins, drs⟩ := pr
      simp only [buildDocAndBinaryResources, Bind.bind, Except.bind, fileToBase64]
      rw [hr, hrec]
      simp [mkBinarySpec, mkDocRefSpec, readData, hr]

theorem buildDocs_ok_shape (a pid : String) (bi di : Nat → String) :
    ∀ (l : List (Option JsFile)) (i : Nat) (bins drs : List Resource),
    buildDocAndBinaryResources a pid bi di i l = .ok (bins, drs) →
    bins = ((List.range' i l.length).zip l).map (fun x => mkBinarySpec x.2 (bi x.1)) ∧
    drs = ((List.range' i l.length).zip l).map
      (fun x => mkDocRefSpec x.2 (di x.1) (bi x.1) a pid) := by
  intro l
  induction l with
  | nil =>
    intro i bins drs h
    simp only [buildDocAndBinaryResources, Except.ok.injEq] at h
    obtain ⟨h1, h2⟩ := Prod.mk.injEq .. ▸ h
    simp [← h1, ← h2]
  | cons f? rest ih =>
    intro i bins drs h
    cases f? with
    | none =>
      rw [buildDocs_cons_none] at h
      cases hrec : buildDocAndBinaryResources a pid bi di (i + 1) rest with
      | error e => rw [hrec] at h; exact absurd h (by simp)
      | ok pr =>
        obtain ⟨bins', drs'⟩ := pr
        rw [hrec] at h
        simp only [Except.ok.injEq, Prod.mk.injEq] at h
        obtain ⟨hb, hd⟩ := h
        obtain ⟨hb', hd'⟩ := ih (i + 1) bins' drs' hrec
        subst hb hd hb' hd'
        simp [List.range', List.zip_cons_cons]
    | some f =>
      rw [buildDocs_cons_some] at h
      cases hr : f.readResult with
      | none => rw [hr] at h; exact absurd h (by simp)
      | some res =>
        rw [hr] at h
        cases hrec : buildDocAndBinaryResources a pid bi di (i + 1) rest with
        | error e => rw [hrec] at h; exact absurd h (by simp)
        | ok pr =>
          obtain ⟨bins', drs'⟩ := pr
          rw [hrec] at h
          simp only [Except.ok.injEq, Prod.mk.injEq] at h
          obtain ⟨hb, hd⟩ := h
          obtain ⟨hb', hd'⟩ := ih (i + 1) bins' drs' hrec
          subst hb hd hb' hd'
          simp [List.range', List.zip_cons_cons]

theorem buildDocs_error_of_fail (a pid : String) (bi di : Nat → String) :
    ∀ (l : List (Option JsFile)) (i : Nat) (f : JsFile),
    some f ∈ l → f.readResult = none →
    buildDocAndBinaryResources a pid bi di i l = .error "File read error" := by
  intro l
  induction l with
  | nil => intro i f hmem; simp at hmem
  | cons f? rest ih =>
    intro i f hmem hfail
    rcases List.mem_cons.mp hmem with heq | hmem'
    · rw [← heq, buildDocs_cons_some, hfail]
    · cases f? with
      | none =>
        rw [buildDocs_cons_none, ih (i + 1) f hmem' hfail]
      | some g =>
        rw [buildDocs_cons_some]
        cases hg : g.readResult with
        | none => rfl
        | some res => rw [ih (i + 1) f hmem' hfail]

/-- Closed form of the binaries list of a successful build. -/
def binsSpec (inp : BuildInputs) (ids : IdSupply) : List Resource :=
  ((List.range (docsToProcess inp).length).zip (docsToProcess inp)).map
    (fun x => mkBinarySpec x.2 (ids.binId x.1))

/-- Closed form of the DocumentReference list of a successful build. -/
def drsSpec (inp : BuildInputs) (ids : IdSupply) : List Resource :=
  ((List.range (docsToProcess inp).length).zip (docsToProcess inp)).map
    (fun x => mkDocRefSpec x.2 (ids.docId x.1) (ids.binId x.1) inp.authoredOn ids.patientId)

theorem buildDocs_ok_reads (a pid : String) (bi di : Nat → String)
    (l : List (Option JsFile)) (i : Nat) (pr : List Resource × List Resource)
    (h : buildDocAndBinaryResources a pid bi di i l = .ok pr) :
    ∀ f : JsFile, some f ∈ l → f.readResult ≠ none := by
  intro f hmem hfail
  rw [buildDocs_error_of_fail a pid bi di l i f hmem hfail] at h
  exact absurd h (by simp)

theorem onBuildBundle_ok_shape {inp : BuildInputs} {ids : IdSupply} {b : Bundle}
    (h : onBuildBundle inp ids = .ok b) :
    ∃ p, inp.selectedPatient = some p ∧
      b = assembleBundle p inp ids (binsSpec inp ids) (drsSpec inp ids) ∧
      ∀ f : JsFile, f ∈ inp.files → f.readResult ≠ none := by
  unfold onBuildBundle at h
  cases hsel : inp.selectedPatient with
  | none => rw [hsel] at h; exact absurd h (by simp)
  | some p =>
    rw [hsel] at h
    simp only at h
    by_cases h1 : (inp.title == "" || jsTrim inp.title == "") = true
    · rw [if_pos h1] at h; exact absurd h (by simp)
    · rw [if_neg h1] at h
      by_cases h2 : (inp.status == "") = true
      · rw [if_pos h2] at h; exact absurd h (by simp)
      · rw [if_neg h2] at h
        cases hdoc : buildDocAndBinaryResources inp.authoredOn ids.patientId ids.binId
            ids.docId 0 (docsToProcess inp) with
        | error e => rw [hdoc] at h; exact absurd h (by simp)
        | ok pr =>
          obtain ⟨bins, drs⟩ := pr
          rw [hdoc] at h
          simp only [Except.ok.injEq] at h
          obtain ⟨hb, hd⟩ := buildDocs_ok_shape inp.authoredOn ids.patientId ids.binId
            ids.docId (docsToProcess inp) 0 bins drs hdoc
          refine ⟨p, rfl, ?_, ?_⟩
          · rw [← h, hb, hd]
            simp [binsSpec, drsSpec, List.range_eq_range']
          · intro f hf
            refine buildDocs_ok_reads _ _ _ _ _ _ _ hdoc f ?_
            unfold docsToProcess
            rcases hfs : inp.files with _ | ⟨g, gs⟩
            · rw [hfs] at hf; simp at hf
            · rw [hfs] at hf
              simp only [List.isEmpty_cons, Bool.false_eq_true, if_false]
              exact List.mem_map_of_mem some hf

/- -------------------------------- Claim C2 -------------------------------- -/

/-- Claim C2: with no patient selected, a blank (or all-whitespace) title,
or no status, `onBuildBundle` aborts with the corresponding alert before
building anything, and no bundle — not even a partial one — is
produced. -/
theorem claim_C2 :
    ∀ (inp : BuildInputs) (ids : IdSupply),
    (inp.selectedPatient = none →
      onBuildBundle inp ids = .error "Please select a patient (required).") ∧
    (∀ p, inp.selectedPatient = some p → jsTrim inp.title = "" →
      onBuildBundle inp ids = .error "Title is required.") ∧
    (∀ p, inp.selectedPatient = some p → jsTrim inp.title ≠ "" → inp.status = "" →
      onBuildBundle inp ids = .error "Status is required.") ∧
    ((inp.selectedPatient = none ∨ jsTrim inp.title = "" ∨ inp.status = "") →
      ∀ b, onBuildBundle inp ids ≠ .ok b) := by
  intro inp ids
  have habort : ∀ b, (inp.selectedPatient = none ∨ jsTrim inp.title = "" ∨ inp.status = "") →
      onBuildBundle inp ids ≠ .ok b := by
    intro b hcond hok
    obtain ⟨p, hp, _, _⟩ := onBuildBundle_ok_shape hok
    unfold onBuildBundle at hok
    rw [hp] at hok
    simp only at hok
    rcases hcond with hc | hc | hc
    · rw [hp] at hc; exact absurd hc (by simp)
    · rw [hc] at hok
      simp at hok
    · by_cases h1 : (inp.title == "" || jsTrim inp.title == "") = true
      · rw [if_pos h1] at hok; exact absurd hok (by simp)
      · rw [if_neg h1, if_pos (by rw [hc]; rfl)] at hok
        exact absurd hok (by simp)
  refine ⟨?_, ?_, ?_, fun hcond b => habort b hcond⟩
  · intro hsel
    unfold onBuildBundle
    rw [hsel]
  · intro p hp ht
    unfold onBuildBundle
    rw [hp]
    simp only
    rw [if_pos (by rw [ht]; simp)]
  · intro p hp ht hs
    have htne : inp.title ≠ "" := by
      intro h0
      exact ht (by rw [h0]; rfl)
    unfold onBuildBundle
    rw [hp]
    simp only
    rw [if_neg (by simp [htne, ht]), if_pos (by rw [hs]; rfl)]

/- --------------------------- Shared example inputs --------------------------- -/

/-- Example patient used by the concrete witnesses. -/
def exPatient : PatientRec :=
  { id := "p1", user_ref_id := "uref-1", mrn := "MRN-7", abha_ref := "abha-7",
    name := "Asha", gender := "Female", dob := "01-02-1990",
    mobile := "9999999999", email := "", address := "12 Road" }

/-- Example practitioner used by the concrete witnesses. -/
def exPractitioner : PractitionerInfo := { id := "pract-1", name := "Dr. X", license := "LIC-1" }

/-- Example id supply used by the concrete witnesses. -/
def exIds : IdSupply :=
  { compId := "idC", patientId := "idP", encounterId := "idE", custodianOrgId := "idO",
    attesterOrgId := "idA", practFallbackId := "idF",
    binId := fun i => "idB" ++ toString i, docId := fun i => "idD" ++ toString i,
    bundleUuid := "idU", identUuid := "idI" }

/-- Example form state used by the concrete witnesses. -/
def exInputs : BuildInputs :=
  { selectedPatient := some exPatient, selectedAbha := "a@x",
    practitioner := exPractitioner, status := "final", title := "Record",
    encounterRefText := "", custodianName := "", attesterMode := "professional",
    attesterPartyType := "Practitioner", attesterOrgName := "", files := [],
    authoredOn := "2025-08-30T15:04:05+05:30", nowIso := "2025-08-30T15:04:05+05:30" }

/-- Claim C2 witness: the three aborts at concrete inputs. -/
theorem claim_C2_witness :
    onBuildBundle { exInputs with selectedPatient := none } exIds
        = .error "Please select a patient (required)." ∧
    onBuildBundle { exInputs with title := "   " } exIds = .error "Title is required." ∧
    onBuildBundle { exInputs with status := "" } exIds = .error "Status is required." :=
  ⟨(claim_C2 { exInputs with selectedPatient := none } exIds).1 rfl,
   (claim_C2 { exInputs with title := "   " } exIds).2.1 exPatient rfl (by decide),
   (claim_C2 { exInputs with status := "" } exIds).2.2.1 exPatient rfl (by decide) rfl⟩

/- ----------------------- Entry structure of the bundle ----------------------- -/

theorem mkBinarySpec_rid (f? : Option JsFile) (bid : String) :
    (mkBinarySpec f? bid).rid = bid := by cases f? <;> rfl

theorem mkBinarySpec_rtype (f? : Option JsFile) (bid : String) :
    (mkBinarySpec f? bid).rtype = "Binary" := by cases f? <;> rfl

theorem mkBinarySpec_refs (f? : Option JsFile) (bid : String) :
    (mkBinarySpec f? bid).refs = [] := by cases f? <;> rfl

theorem mkDocRefSpec_rid (f? : Option JsFile) (did bid a pid : String) :
    (mkDocRefSpec f? did bid a pid).rid = did := rfl

theorem mkDocRefSpec_rtype (f? : Option JsFile) (did bid a pid : String) :
    (mkDocRefSpec f? did bid a pid).rtype = "DocumentReference" := rfl

theorem mkDocRefSpec_refs (f? : Option JsFile) (did bid a pid : String) :
    (mkDocRefSpec f? did bid a pid).refs = [urn pid, urn bid] := rfl

theorem map_zip_fst {β γ : Type} (g : γ → β) (l1 : List γ) (l2 : List α)
    (h : l1.length ≤ l2.length) :
    (l1.zip l2).map (fun x => g x.1) = l1.map g := by
  rw [show (fun x : γ × α => g x.1) = g ∘ Prod.fst from rfl, ← List.map_map,
    List.map_fst_zip l1 l2 h]

theorem binsSpec_map_rid (inp : BuildInputs) (ids : IdSupply) :
    (binsSpec inp ids).map (fun r => r.rid) =
      (List.range (docsToProcess inp).length).map ids.binId := by
  unfold binsSpec
  rw [List.map_map]
  rw [show ((fun r : Resource => r.rid) ∘
      fun x : Nat × Option JsFile => mkBinarySpec x.2 (ids.binId x.1)) =
      (fun x : Nat × Option JsFile => ids.binId x.1) from
    funext fun x => mkBinarySpec_rid x.2 (ids.binId x.1)]
  exact map_zip_fst ids.binId _ _ (by simp)

theorem drsSpec_map_rid (inp : BuildInputs) (ids : IdSupply) :
    (drsSpec inp ids).map (fun r => r.rid) =
      (List.range (docsToProcess inp).length).map ids.docId := by
  unfold drsSpec
  rw [List.map_map]
  rw [show ((fun r : Resource => r.rid) ∘
      fun x : Nat × Option JsFile =>
        mkDocRefSpec x.2 (ids.docId x.1) (ids.binId x.1) inp.authoredOn ids.patientId) =
      (fun x : Nat × Option JsFile => ids.docId x.1) from
    funext fun x =>
      mkDocRefSpec_rid x.2 (ids.docId x.1) (ids.binId x.1) inp.authoredOn ids.patientId]
  exact map_zip_fst ids.docId _ _ (by simp)

theorem binsSpec_map_rtype (inp : BuildInputs) (ids : IdSupply) :
    (binsSpec inp ids).map (fun r => r.rtype) =
      List.replicate (docsToProcess inp).length "Binary" := by
  unfold binsSpec
  rw [List.map_map]
  rw [show ((fun r : Resource => r.rtype) ∘
      fun x : Nat × Option JsFile => mkBinarySpec x.2 (ids.binId x.1)) =
      (fun _ : Nat × Option JsFile => "Binary") from
    funext fun x => mkBinarySpec_rtype x.2 (ids.binId x.1)]
  rw [List.map_const', List.length_zip, List.length_range, Nat.min_self]

theorem drsSpec_map_rtype (inp : BuildInputs) (ids : IdSupply) :
    (drsSpec inp ids).map (fun r => r.rtype) =
      List.replicate (docsToProcess inp).length "DocumentReference" := by
  unfold drsSpec
  rw [List.map_map]
  rw [show ((fun r : Resource => r.rtype) ∘
      fun x : Nat × Option JsFile =>
        mkDocRefSpec x.2 (ids.docId x.1) (ids.binId x.1) inp.authoredOn ids.patientId) =
      (fun _ : Nat × Option JsFile => "DocumentReference") from
    funext fun x =>
      mkDocRefSpec_rtype x.2 (ids.docId x.1) (ids.binId x.1) inp.authoredOn ids.patientId]
  rw [List.map_const', List.length_zip, List.length_range, Nat.min_self]

theorem docsToProcess_length (inp : BuildInputs) :
    (docsToProcess inp).length = (if inp.files.isEmpty then 1 else inp.files.length) := by
  unfold docsToProcess
  split <;> simp

theorem docsToProcess_length_max (inp : BuildInputs) :
    (docsToProcess inp).length = max 1 inp.files.length := by
  rw [docsToProcess_length]
  cases hfs : inp.files with
  | nil => simp
  | cons f fs => simp

/-- The fixed sequence of `resourceType`s of a successful build's entries. -/
def typeList (inp : BuildInputs) : List String :=
  let n := max 1 inp.files.length
  ["Composition", "Patient", "Practitioner"] ++
  (if inp.encounterRefText != "" then ["Encounter"] else []) ++
  (if inp.custodianName != "" then ["Organization"] else []) ++
  (if inp.attesterPartyType == "Organization" && inp.attesterOrgName != "" then
    ["Organization"] else []) ++
  List.replicate n "DocumentReference" ++ List.replicate n "Binary"

@[simp] theorem rid_composition (i s t d su e a at_ cu se) :
    (Resource.composition i s t d su e a at_ cu se).rid = i := rfl
@[simp] theorem rid_patient (i idf n g b te ad) :
    (Resource.patient i idf n g b te ad).rid = i := rfl
@[simp] theorem rid_practitioner (i l n) : (Resource.practitioner i l n).rid = i := rfl
@[simp] theorem rid_encounter (i s ps pe) : (Resource.encounter i s ps pe).rid = i := rfl
@[simp] theorem rid_organization (i v n) : (Resource.organization i v n).rid = i := rfl
@[simp] theorem rid_documentReference (i s su d c) :
    (Resource.documentReference i s su d c).rid = i := rfl
@[simp] theorem rid_binary (i c d) : (Resource.binary i c d).rid = i := rfl
@[simp] theorem rid_invoice (i s n d su re is_) :
    (Resource.invoice i s n d su re is_).rid = i := rfl

@[simp] theorem rtype_composition (i s t d su e a at_ cu se) :
    (Resource.composition i s t d su e a at_ cu se).rtype = "Composition" := rfl
@[simp] theorem rtype_patient (i idf n g b te ad) :
    (Resource.patient i idf n g b te ad).rtype = "Patient" := rfl
@[simp] theorem rtype_practitioner (i l n) :
    (Resource.practitioner i l n).rtype = "Practitioner" := rfl
@[simp] theorem rtype_encounter (i s ps pe) :
    (Resource.encounter i s ps pe).rtype = "Encounter" := rfl
@[simp] theorem rtype_organization (i v n) :
    (Resource.organization i v n).rtype = "Organization" := rfl
@[simp] theorem rtype_documentReference (i s su d c) :
    (Resource.documentReference i s su d c).rtype = "DocumentReference" := rfl
@[simp] theorem rtype_binary (i c d) : (Resource.binary i c d).rtype = "Binary" := rfl
@[simp] theorem rtype_invoice (i s n d su re is_) :
    (Resource.invoice i s n d su re is_).rtype = "Invoice" := rfl

theorem map_urn_rid (rs : List Resource) :
    rs.map (fun r => urn r.rid) = (rs.map (fun r => r.rid)).map urn := by
  rw [List.map_map]
  rfl

theorem map_entry_res_rid (rs : List Resource) :
    List.map ((fun e : BundleEntry => e.resource.rid) ∘
      fun dr => (⟨urn dr.rid, dr⟩ : BundleEntry)) rs = rs.map (fun r => r.rid) := rfl

theorem map_entry_res_rtype (rs : List Resource) :
    List.map ((fun e : BundleEntry => e.resource.rtype) ∘
      fun dr => (⟨urn dr.rid, dr⟩ : BundleEntry)) rs = rs.map (fun r => r.rtype) := rfl

theorem map_entry_fullUrl (rs : List Resource) :
    List.map ((fun e : BundleEntry => e.fullUrl) ∘
      fun dr => (⟨urn dr.rid, dr⟩ : BundleEntry)) rs = (rs.map (fun r => r.rid)).map urn := by
  rw [List.map_map]
  rfl

theorem assemble_map_rids (p : PatientRec) (inp : BuildInputs) (ids : IdSupply) :
    (assembleBundle p inp ids (binsSpec inp ids) (drsSpec inp ids)).entry.map
      (fun e => e.resource.rid) = usedIds inp ids := by
  unfold assembleBundle usedIds
  by_cases hEnc : (inp.encounterRefText != "") = true <;>
    by_cases hCust : (inp.custodianName != "") = true <;>
      by_cases hAtt : (inp.attesterPartyType == "Organization" &&
        inp.attesterOrgName != "") = true <;>
    simp [hEnc, hCust, hAtt, buildCompositionResource, buildPatientResource,
      map_entry_res_rid, binsSpec_map_rid, drsSpec_map_rid, docsToProcess_length]

theorem assemble_map_types (p : PatientRec) (inp : BuildInputs) (ids : IdSupply) :
    (assembleBundle p inp ids (binsSpec inp ids) (drsSpec inp ids)).entry.map
      (fun e => e.resource.rtype) = typeList inp := by
  unfold assembleBundle typeList
  by_cases hEnc : (inp.encounterRefText != "") = true <;>
    by_cases hCust : (inp.custodianName != "") = true <;>
      by_cases hAtt : (inp.attesterPartyType == "Organization" &&
        inp.attesterOrgName != "") = true <;>
    simp [hEnc, hCust, hAtt, buildCompositionResource, buildPatientResource,
      map_entry_res_rtype, binsSpec_map_rtype, drsSpec_map_rtype, docsToProcess_length_max]

theorem assemble_map_fullUrls (p : PatientRec) (inp : BuildInputs) (ids : IdSupply) :
    (assembleBundle p inp ids (binsSpec inp ids) (drsSpec inp ids)).entry.map
      (fun e => e.fullUrl) = (usedIds inp ids).map urn := by
  unfold assembleBundle usedIds
  by_cases hEnc : (inp.encounterRefText != "") = true <;>
    by_cases hCust : (inp.custodianName != "") = true <;>
      by_cases hAtt : (inp.attesterPartyType == "Organization" &&
        inp.attesterOrgName != "") = true <;>
    simp [hEnc, hCust, hAtt, buildCompositionResource, buildPatientResource,
      map_entry_fullUrl, binsSpec_map_rid, drsSpec_map_rid, docsToProcess_length]

/- ------------------------- Reference-resolution facts ------------------------- -/

@[simp] theorem refs_composition (i s t d su e a at_ cu se) :
    (Resource.composition i s t d su e a at_ cu se).refs =
      su :: (e.toList ++ [a] ++ at_.map Prod.snd ++ cu.toList ++ se) := rfl
@[simp] theorem refs_patient (i idf n g b te ad) :
    (Resource.patient i idf n g b te ad).refs = [] := rfl
@[simp] theorem refs_practitioner (i l n) : (Resource.practitioner i l n).refs = [] := rfl
@[simp] theorem refs_encounter (i s ps pe) : (Resource.encounter i s ps pe).refs = [s] := rfl
@[simp] theorem refs_organization (i v n) : (Resource.organization i v n).refs = [] := rfl
@[simp] theorem refs_documentReference (i s su d c) :
    (Resource.documentReference i s su d c).refs = [su, c.url] := rfl
@[simp] theorem refs_binary (i c d) : (Resource.binary i c d).refs = [] := rfl
@[simp] theorem refs_invoice (i s n d su re is_) :
    (Resource.invoice i s n d su re is_).refs = [su, re, is_] := rfl

theorem urn_injective : Function.Injective urn := by
  intro a b h
  cases a with
  | mk la =>
    cases b with
    | mk lb =>
      have hd := congrArg String.data h
      simp only [urn, String.data_append] at hd
      exact congrArg String.mk ((List.append_right_inj _).mp hd)

/-- Resolvability follows from: fullUrls are the `urn`s of a duplicate-free
id list, and every embedded reference is the `urn` of one of those ids. -/
theorem resolvable_of_covering (b : Bundle) (idsl : List String)
    (hfull : b.entry.map (fun e => e.fullUrl) = idsl.map urn)
    (hnd : idsl.Nodup)
    (hcov : ∀ e ∈ b.entry, ∀ r ∈ e.resource.refs, ∃ x ∈ idsl, r = urn x) :
    resolvable b := by
  intro e he r hr
  obtain ⟨x, hx, rfl⟩ := hcov e he r hr
  have h1 : b.entry.countP (fun e2 => e2.fullUrl == urn x)
      = (b.entry.map (fun e2 => e2.fullUrl)).countP (fun u => u == urn x) :=
    (List.countP_map (fun u => u == urn x) (fun e2 : BundleEntry => e2.fullUrl)
      b.entry).symm
  rw [h1, hfull]
  have h2 : (idsl.map urn).countP (fun u => u == urn x)
      = List.count (urn x) (idsl.map urn) := rfl
  rw [h2, List.count_map_of_injective idsl urn urn_injective x]
  exact List.count_eq_one_of_mem hnd hx

theorem usedIds_mem_comp (inp : BuildInputs) (ids : IdSupply) :
    ids.compId ∈ usedIds inp ids := by
  unfold usedIds
  simp

theorem usedIds_mem_patient (inp : BuildInputs) (ids : IdSupply) :
    ids.patientId ∈ usedIds inp ids := by
  unfold usedIds
  simp

theorem usedIds_mem_pract (inp : BuildInputs) (ids : IdSupply) :
    (if inp.practitioner.id != "" then inp.practitioner.id else ids.practFallbackId)
      ∈ usedIds inp ids := by
  unfold usedIds
  simp

theorem usedIds_mem_enc (inp : BuildInputs) (ids : IdSupply)
    (h : (inp.encounterRefText != "") = true) : ids.encounterId ∈ usedIds inp ids := by
  unfold usedIds
  simp [h]

theorem usedIds_mem_cust (inp : BuildInputs) (ids : IdSupply)
    (h : (inp.custodianName != "") = true) : ids.custodianOrgId ∈ usedIds inp ids := by
  unfold usedIds
  simp [h]

theorem usedIds_mem_att (inp : BuildInputs) (ids : IdSupply)
    (h : (inp.attesterPartyType == "Organization" && inp.attesterOrgName != "") = true) :
    ids.attesterOrgId ∈ usedIds inp ids := by
  unfold usedIds
  simp [h]

theorem usedIds_mem_doc (inp : BuildInputs) (ids : IdSupply) (k : Nat)
    (h : k < (docsToProcess inp).length) : ids.docId k ∈ usedIds inp ids := by
  unfold usedIds
  rw [docsToProcess_length] at h
  simp only [List.mem_append, List.mem_map, List.mem_range]
  exact Or.inl (Or.inr ⟨k, h, rfl⟩)

theorem usedIds_mem_bin (inp : BuildInputs) (ids : IdSupply) (k : Nat)
    (h : k < (docsToProcess inp).length) : ids.binId k ∈ usedIds inp ids := by
  unfold usedIds
  rw [docsToProcess_length] at h
  simp only [List.mem_append, List.mem_map, List.mem_range]
  exact Or.inr ⟨k, h, rfl⟩

theorem drsSpec_elem (inp : BuildInputs) (ids : IdSupply) (dr : Resource)
    (h : dr ∈ drsSpec inp ids) :
    ∃ k, k < (docsToProcess inp).length ∧ dr.rid = ids.docId k ∧
      dr.refs = [urn ids.patientId, urn (ids.binId k)] := by
  unfold drsSpec at h
  obtain ⟨x, hx, hdr⟩ := List.mem_map.mp h
  refine ⟨x.1, List.mem_range.mp (List.of_mem_zip hx).1, ?_, ?_⟩
  · rw [← hdr]
    exact mkDocRefSpec_rid x.2 _ _ _ _
  · rw [← hdr]
    exact mkDocRefSpec_refs x.2 _ _ _ _

theorem binsSpec_elem (inp : BuildInputs) (ids : IdSupply) (bi : Resource)
    (h : bi ∈ binsSpec inp ids) :
    (∃ k, k < (docsToProcess inp).length ∧ bi.rid = ids.binId k) ∧ bi.refs = [] := by
  unfold binsSpec at h
  obtain ⟨x, hx, hbi⟩ := List.mem_map.mp h
  refine ⟨⟨x.1, List.mem_range.mp (List.of_mem_zip hx).1, ?_⟩, ?_⟩
  · rw [← hbi]
    exact mkBinarySpec_rid x.2 _
  · rw [← hbi]
    exact mkBinarySpec_refs x.2 _

theorem mem_attester_snd (am apt practId : String) (oid : Option String) (r : String)
    (h : r ∈ List.map Prod.snd
      (if (if (apt == "Practitioner") = true then [(am, urn practId)]
          else if (apt == "Organization") = true then
            (match oid with
            | some o => [(am, urn o)]
            | none => [])
          else []).isEmpty = true then
        [("official", urn practId)]
      else
        if (apt == "Practitioner") = true then [(am, urn practId)]
        else if (apt == "Organization") = true then
          (match oid with
          | some o => [(am, urn o)]
          | none => [])
        else [])) :
    r = urn practId ∨ ∃ o, oid = some o ∧ r = urn o := by
  by_cases h1 : (apt == "Practitioner") = true
  · simp [h1] at h
    exact Or.inl h
  · by_cases h2 : (apt == "Organization") = true
    · cases oid with
      | none =>
        simp [h1, h2] at h
        exact Or.inl h
      | some o =>
        simp [h1, h2] at h
        exact Or.inr ⟨o, rfl, h⟩
    · simp [h1, h2] at h
      exact Or.inl h

theorem cov_composition (inp : BuildInputs) (ids : IdSupply) (r : String)
    (hr : r ∈ (buildCompositionResource ids.compId inp.status inp.title inp.authoredOn
      ids.patientId
      (if inp.practitioner.id != "" then inp.practitioner.id else ids.practFallbackId)
      (Option.map urn (if inp.encounterRefText != "" then some ids.encounterId else none))
      (if inp.custodianName != "" then some ids.custodianOrgId else none)
      inp.attesterMode inp.attesterPartyType
      (if inp.attesterPartyType == "Organization" && inp.attesterOrgName != "" then
        some ids.attesterOrgId else none)
      (drsSpec inp ids)).refs) :
    ∃ x ∈ usedIds inp ids, r = urn x := by
  unfold buildCompositionResource at hr
  simp only [refs_composition, List.mem_cons, List.mem_append, List.mem_singleton,
    List.mem_nil_iff, or_false, false_or] at hr
  rcases hr with rfl | ((((henc | rfl) | hatt) | hcust) | hsec)
  · exact ⟨ids.patientId, usedIds_mem_patient inp ids, rfl⟩
  · by_cases hEnc : (inp.encounterRefText != "") = true
    · simp [hEnc] at henc
      exact ⟨ids.encounterId, usedIds_mem_enc inp ids hEnc, henc⟩
    · simp [hEnc] at henc
  · exact ⟨_, usedIds_mem_pract inp ids, rfl⟩
  · rcases mem_attester_snd inp.attesterMode inp.attesterPartyType _ _ r hatt with
      rfl | ⟨o, ho, rfl⟩
    · exact ⟨_, usedIds_mem_pract inp ids, rfl⟩
    · by_cases hAtt : (inp.attesterPartyType == "Organization" &&
        inp.attesterOrgName != "") = true
      · rw [if_pos hAtt] at ho
        injection ho with ho2
        subst ho2
        exact ⟨ids.attesterOrgId, usedIds_mem_att inp ids hAtt, rfl⟩
      · rw [if_neg hAtt] at ho
        exact absurd ho (by simp)
  · by_cases hCust : (inp.custodianName != "") = true
    · simp [hCust] at hcust
      exact ⟨ids.custodianOrgId, usedIds_mem_cust inp ids hCust, hcust⟩
    · simp [hCust] at hcust
  · obtain ⟨dr, hdr, rfl⟩ := List.mem_map.mp hsec
    obtain ⟨k, hk, hrid, _⟩ := drsSpec_elem inp ids dr hdr
    exact ⟨ids.docId k, usedIds_mem_doc inp ids k hk, by rw [hrid]⟩

theorem forall_mem_opt_seg {P : BundleEntry → Prop} (o : Option Resource)
    (h : ∀ x, o = some x → P ⟨urn x.rid, x⟩) :
    ∀ e ∈ (match o with | some r => [(⟨urn r.rid, r⟩ : BundleEntry)] | none => []), P e := by
  intro e he
  cases o with
  | none => simp at he
  | some x =>
    simp at he
    subst he
    exact h x rfl

theorem assemble_cov (p : PatientRec) (inp : BuildInputs) (ids : IdSupply) :
    ∀ e ∈ (assembleBundle p inp ids (binsSpec inp ids) (drsSpec inp ids)).entry,
    ∀ r ∈ e.resource.refs, ∃ x ∈ usedIds inp ids, r = urn x := by
  have happ : ∀ {l1 l2 : List BundleEntry},
      (∀ e ∈ l1, ∀ r ∈ e.resource.refs, ∃ x ∈ usedIds inp ids, r = urn x) →
      (∀ e ∈ l2, ∀ r ∈ e.resource.refs, ∃ x ∈ usedIds inp ids, r = urn x) →
      ∀ e ∈ l1 ++ l2, ∀ r ∈ e.resource.refs, ∃ x ∈ usedIds inp ids, r = urn x := by
    intro l1 l2 h1 h2 e he
    rcases List.mem_append.mp he with h | h
    · exact h1 e h
    · exact h2 e h
  simp only [assembleBundle]
  refine happ (happ (happ (happ (happ ?_ ?_) ?_) ?_) ?_) ?_
  · intro e he r hr
    rcases List.mem_cons.mp he with rfl | he2
    · exact cov_composition inp ids r hr
    · rcases List.mem_cons.mp he2 with rfl | he3
      · exact absurd hr (by simp [buildPatientResource])
      · rcases List.mem_cons.mp he3 with rfl | he4
        · exact absurd hr (by simp)
        · exact absurd he4 (List.not_mem_nil e)
  · refine forall_mem_opt_seg _ ?_
    intro x hx r hr
    by_cases hEnc : (inp.encounterRefText != "") = true
    · rw [if_pos hEnc] at hx
      simp only [Option.map_some', Option.some.injEq] at hx
      subst hx
      simp only [rid_encounter, refs_encounter, List.mem_singleton] at hr
      subst hr
      exact ⟨ids.patientId, usedIds_mem_patient inp ids, rfl⟩
    · rw [if_neg hEnc] at hx
      simp at hx
  · refine forall_mem_opt_seg _ ?_
    intro x hx r hr
    by_cases hCust : (inp.custodianName != "") = true
    · rw [if_pos hCust] at hx
      simp only [Option.map_some', Option.some.injEq] at hx
      subst hx
      simp at hr
    · rw [if_neg hCust] at hx
      simp at hx
  · refine forall_mem_opt_seg _ ?_
    intro x hx r hr
    by_cases hAtt : (inp.attesterPartyType == "Organization" &&
        inp.attesterOrgName != "") = true
    · rw [if_pos hAtt] at hx
      simp only [Option.map_some', Option.some.injEq] at hx
      subst hx
      simp at hr
    · rw [if_neg hAtt] at hx
      simp at hx
  · intro e he r hr
    obtain ⟨dr, hdr, rfl⟩ := List.mem_map.mp he
    obtain ⟨k, hk, _, hrefs⟩ := drsSpec_elem inp ids dr hdr
    rw [show (⟨urn dr.rid, dr⟩ : BundleEntry).resource = dr from rfl, hrefs] at hr
    rcases List.mem_cons.mp hr with rfl | hr2
    · exact ⟨ids.patientId, usedIds_mem_patient inp ids, rfl⟩
    · rcases List.mem_cons.mp hr2 with rfl | hr3
      · exact ⟨ids.binId k, usedIds_mem_bin inp ids k hk, rfl⟩
      · exact absurd hr3 (List.not_mem_nil r)
  · intro e he r hr
    obtain ⟨bi, hbi, rfl⟩ := List.mem_map.mp he
    obtain ⟨_, hrefs⟩ := binsSpec_elem inp ids bi hbi
    rw [show (⟨urn bi.rid, bi⟩ : BundleEntry).resource = bi from rfl, hrefs] at hr
    exact absurd hr (List.not_mem_nil r)

theorem buildBundle_ok_shape {dp : String → Option String} {inp : InvoiceInputs}
    {ids : InvIdSupply} {b : Bundle} (h : buildBundle dp inp ids = .ok b) :
    ∃ idx selPatient, inp.selectedPatientIdx = some idx ∧
      inp.patients.get? idx = some selPatient ∧
      b.entry.map (fun e => e.fullUrl) = (invUsedIds inp ids).map urn ∧
      b.entry.map (fun e => e.resource.rid) = invUsedIds inp ids ∧
      (∀ e ∈ b.entry, ∀ r ∈ e.resource.refs, ∃ x ∈ invUsedIds inp ids, r = urn x) := by
  unfold buildBundle at h
  cases hidx : inp.selectedPatientIdx with
  | none => rw [hidx] at h; exact absurd h (by simp)
  | some idx =>
    rw [hidx] at h
    simp only at h
    cases hpt : inp.patients.get? idx with
    | none => rw [hpt] at h; exact absurd h (by simp)
    | some selPatient =>
      rw [hpt] at h
      dsimp only at h
      by_cases habha : (inp.selectedAbha == "") = true
      · rw [if_pos habha] at h
        exact absurd h (by simp)
      · rw [if_neg habha] at h
        simp only [Except.ok.injEq] at h
        have hbind : inp.selectedPatientIdx.bind (fun i => inp.patients.get? i)
            = some selPatient := by
          rw [hidx]
          simpa using hpt
        have husd : invUsedIds inp ids =
            [ids.compId,
             (if selPatient.user_ref_id != "" then jsToLower selPatient.user_ref_id
              else ids.patientId),
             (if inp.practitioner.id != "" then inp.practitioner.id else ids.practitionerId),
             ids.orgId, ids.invoiceId] := by
          unfold invUsedIds
          rw [hbind]
        refine ⟨idx, selPatient, rfl, hpt, ?_, ?_, ?_⟩
        · rw [← h, husd]
          simp
        · rw [← h, husd]
          simp
        · rw [← h]
          intro e he r hr
          simp only [List.mem_cons, List.mem_singleton, List.not_mem_nil, or_false] at he
          rcases he with rfl | rfl | rfl | rfl | rfl
          · simp only [refs_composition, List.mem_cons, List.mem_append, List.mem_singleton,
              Option.toList_none, List.mem_nil_iff, or_false, false_or, List.map_cons,
              List.map_nil] at hr
            rcases hr with rfl | (rfl | rfl) | rfl
            · exact ⟨_, by rw [husd]; simp, rfl⟩
            · exact ⟨_, by rw [husd]; simp, rfl⟩
            · exact ⟨_, by rw [husd]; simp, rfl⟩
            · exact ⟨ids.invoiceId, by rw [husd]; simp, rfl⟩
          · simp only [refs_patient] at hr
            exact absurd hr (List.not_mem_nil r)
          · simp only [refs_practitioner] at hr
            exact absurd hr (List.not_mem_nil r)
          · simp only [refs_organization] at hr
            exact absurd hr (List.not_mem_nil r)
          · simp only [refs_invoice, List.mem_cons, List.mem_singleton, List.not_mem_nil,
              or_false] at hr
            rcases hr with rfl | rfl | rfl
            · exact ⟨_, by rw [husd]; simp, rfl⟩
            · exact ⟨_, by rw [husd]; simp, rfl⟩
            · exact ⟨ids.orgId, by rw [husd]; simp, rfl⟩

theorem assemble_countP_type (p : PatientRec) (inp : BuildInputs) (ids : IdSupply)
    (t : String) :
    (assembleBundle p inp ids (binsSpec inp ids) (drsSpec inp ids)).entry.countP
      (fun e => e.resource.rtype == t) = (typeList inp).countP (fun s => s == t) := by
  have h1 : (assembleBundle p inp ids (binsSpec inp ids) (drsSpec inp ids)).entry.countP
      (fun e => e.resource.rtype == t)
      = ((assembleBundle p inp ids (binsSpec inp ids) (drsSpec inp ids)).entry.map
          (fun e => e.resource.rtype)).countP (fun s => s == t) :=
    (List.countP_map (fun s => s == t) (fun e : BundleEntry => e.resource.rtype) _).symm
  rw [h1, assemble_map_types p inp ids]

theorem typeList_count_bin (inp : BuildInputs) :
    (typeList inp).countP (fun s => s == "Binary") = max 1 inp.files.length := by
  unfold typeList
  by_cases hEnc : (inp.encounterRefText != "") = true <;>
    by_cases hCust : (inp.custodianName != "") = true <;>
      by_cases hAtt : (inp.attesterPartyType == "Organization" &&
        inp.attesterOrgName != "") = true <;>
    simp [hEnc, hCust, hAtt, List.countP_append, List.countP_replicate, List.countP_cons]

theorem typeList_count_dr (inp : BuildInputs) :
    (typeList inp).countP (fun s => s == "DocumentReference") = max 1 inp.files.length := by
  unfold typeList
  by_cases hEnc : (inp.encounterRefText != "") = true <;>
    by_cases hCust : (inp.custodianName != "") = true <;>
      by_cases hAtt : (inp.attesterPartyType == "Organization" &&
        inp.attesterOrgName != "") = true <;>
    simp [hEnc, hCust, hAtt, List.countP_append, List.countP_replicate, List.countP_cons]

theorem binsSpec_forall_rtype (inp : BuildInputs) (ids : IdSupply) :
    ∀ a ∈ binsSpec inp ids, a.rtype = "Binary" := by
  unfold binsSpec
  rw [List.forall_mem_map]
  intro x _
  exact mkBinarySpec_rtype x.2 _

theorem drsSpec_forall_rtype (inp : BuildInputs) (ids : IdSupply) :
    ∀ a ∈ drsSpec inp ids, a.rtype = "DocumentReference" := by
  unfold drsSpec
  rw [List.forall_mem_map]
  intro x _
  exact mkDocRefSpec_rtype x.2 _ _ _ _

theorem filter_keep (rs : List Resource) (t : String) (h : ∀ a ∈ rs, a.rtype = t) :
    List.filter ((fun e : BundleEntry => e.resource.rtype == t) ∘
      fun dr => (⟨urn dr.rid, dr⟩ : BundleEntry)) rs = rs :=
  List.filter_eq_self.mpr (fun a ha => by simp [Function.comp, h a ha])

theorem filter_drop (rs : List Resource) (t t2 : String) (hne : t ≠ t2)
    (h : ∀ a ∈ rs, a.rtype = t) :
    List.filter ((fun e : BundleEntry => e.resource.rtype == t2) ∘
      fun dr => (⟨urn dr.rid, dr⟩ : BundleEntry)) rs = [] :=
  List.filter_eq_nil_iff.mpr (fun a ha => by simp [Function.comp, h a ha, hne])

theorem map_entry_res (rs : List Resource) :
    List.map ((fun e : BundleEntry => e.resource) ∘
      fun dr => (⟨urn dr.rid, dr⟩ : BundleEntry)) rs = rs :=
  List.map_id' rs

theorem assemble_filter_bin (p : PatientRec) (inp : BuildInputs) (ids : IdSupply) :
    ((assembleBundle p inp ids (binsSpec inp ids) (drsSpec inp ids)).entry.filter
      (fun e => e.resource.rtype == "Binary")).map (fun e => e.resource)
      = binsSpec inp ids := by
  unfold assembleBundle
  by_cases hEnc : (inp.encounterRefText != "") = true <;>
    by_cases hCust : (inp.custodianName != "") = true <;>
      by_cases hAtt : (inp.attesterPartyType == "Organization" &&
        inp.attesterOrgName != "") = true <;>
    simp [hEnc, hCust, hAtt, List.filter_append, List.filter_map, List.filter_cons,
      buildCompositionResource, buildPatientResource,
      filter_keep _ _ (binsSpec_forall_rtype inp ids),
      filter_drop _ _ "Binary" (by decide) (drsSpec_forall_rtype inp ids),
      map_entry_res]

theorem assemble_filter_dr (p : PatientRec) (inp : BuildInputs) (ids : IdSupply) :
    ((assembleBundle p inp ids (binsSpec inp ids) (drsSpec inp ids)).entry.filter
      (fun e => e.resource.rtype == "DocumentReference")).map (fun e => e.resource)
      = drsSpec inp ids := by
  unfold assembleBundle
  by_cases hEnc : (inp.encounterRefText != "") = true <;>
    by_cases hCust : (inp.custodianName != "") = true <;>
      by_cases hAtt : (inp.attesterPartyType == "Organization" &&
        inp.attesterOrgName != "") = true <;>
    simp [hEnc, hCust, hAtt, List.filter_append, List.filter_map, List.filter_cons,
      buildCompositionResource, buildPatientResource,
      filter_keep _ _ (drsSpec_forall_rtype inp ids),
      filter_drop _ _ "DocumentReference" (by decide) (binsSpec_forall_rtype inp ids),
      map_entry_res]

theorem binsSpec_nil (inp : BuildInputs) (ids : IdSupply) (h : inp.files = []) :
    binsSpec inp ids = [Resource.binary (ids.binId 0) "application/pdf" PLACEHOLDER_PDF_B64] := by
  unfold binsSpec docsToProcess
  simp [h, List.range_succ, mkBinarySpec]

theorem drsSpec_nil (inp : BuildInputs) (ids : IdSupply) (h : inp.files = []) :
    drsSpec inp ids = [Resource.documentReference (ids.docId 0) "current" (urn ids.patientId)
      inp.authoredOn ⟨"application/pdf", "placeholder.pdf", urn (ids.binId 0)⟩] := by
  unfold drsSpec docsToProcess
  simp [h, List.range_succ, mkDocRefSpec]

theorem binsSpec_files (inp : BuildInputs) (ids : IdSupply) (hne : inp.files ≠ []) :
    binsSpec inp ids = inp.files.enum.map
      (fun x => Resource.binary (ids.binId x.1)
        (if x.2.type != "" then x.2.type else "application/pdf") (readData x.2)) := by
  unfold binsSpec docsToProcess
  have hE : inp.files.isEmpty = false := by
    cases hfs : inp.files with
    | nil => exact absurd hfs hne
    | cons f fs => rfl
  rw [if_neg (by simp [hE]), List.length_map, List.zip_map_right, List.map_map,
    ← List.enum_eq_zip_range]
  apply List.map_congr_left
  intro x _
  rcases x with ⟨i, f⟩
  simp [mkBinarySpec]

theorem drsSpec_files (inp : BuildInputs) (ids : IdSupply) (hne : inp.files ≠ []) :
    drsSpec inp ids = inp.files.enum.map
      (fun x => Resource.documentReference (ids.docId x.1) "current" (urn ids.patientId)
        inp.authoredOn
        ⟨(if x.2.type != "" then x.2.type else "application/pdf"),
         (if x.2.name != "" then x.2.name else "placeholder.pdf"),
         urn (ids.binId x.1)⟩) := by
  unfold drsSpec docsToProcess
  have hE : inp.files.isEmpty = false := by
    cases hfs : inp.files with
    | nil => exact absurd hfs hne
    | cons f fs => rfl
  rw [if_neg (by simp [hE]), List.length_map, List.zip_map_right, List.map_map,
    ← List.enum_eq_zip_range]
  apply List.map_congr_left
  intro x _
  rcases x with ⟨i, f⟩
  simp [mkDocRefSpec]

/- ----------------------------- Claims C1, C3, C4 ----------------------------- -/

/-- Claim C1: in both variants, every successful build's bundle is
internally resolvable — every embedded reference (subject, author,
attester party, custodian, encounter, section entries, attachment url,
recipient/issuer) equals the fullUrl of exactly one entry — and no two
entries carry the same resource id.  The hypothesis is the freshness
(pairwise distinctness) of the drawn `uuidv4` ids, which is what the code
relies on probabilistically. -/
theorem claim_C1 :
    (∀ (inp : BuildInputs) (ids : IdSupply) (b : Bundle),
      (usedIds inp ids).Nodup → onBuildBundle inp ids = .ok b →
      resolvable b ∧ nodupIds b) ∧
    (∀ (dateParse : String → Option String) (inp : InvoiceInputs) (ids : InvIdSupply)
      (b : Bundle), (invUsedIds inp ids).Nodup → buildBundle dateParse inp ids = .ok b →
      resolvable b ∧ nodupIds b) := by
  constructor
  · intro inp ids b hnd hok
    obtain ⟨p, _, hb, _⟩ := onBuildBundle_ok_shape hok
    subst hb
    constructor
    · exact resolvable_of_covering _ _ (assemble_map_fullUrls p inp ids) hnd
        (assemble_cov p inp ids)
    · unfold nodupIds
      rw [assemble_map_rids p inp ids]
      exact hnd
  · intro dp inp ids b hnd hok
    obtain ⟨idx, sp, _, _, hfull, hrids, hcov⟩ := buildBundle_ok_shape hok
    constructor
    · exact resolvable_of_covering b _ hfull hnd hcov
    · unfold nodupIds
      rw [hrids]
      exact hnd

/-- Claim C3: every successful build's entry list has the fixed order —
document root (Composition) first, then Patient, Practitioner, the
optional Encounter, Custodian-Organization and Attester-Organization,
then ALL DocumentReferences, then ALL Binaries (two flattened blocks,
not interleaved pairs); the fullUrl sequence pins the role of each
optional slot via `usedIds`. -/
theorem claim_C3 :
    ∀ (inp : BuildInputs) (ids : IdSupply) (b : Bundle), onBuildBundle inp ids = .ok b →
    b.entry.map (fun e => e.resource.rtype) = typeList inp ∧
    b.entry.map (fun e => e.fullUrl) = (usedIds inp ids).map urn := by
  intro inp ids b h
  obtain ⟨p, _, hb, _⟩ := onBuildBundle_ok_shape h
  subst hb
  exact ⟨assemble_map_types p inp ids, assemble_map_fullUrls p inp ids⟩

/-- Claim C4: every successful build carries exactly
`max 1 (number of uploaded files)` Binary entries and equally many
DocumentReference entries; with zero uploads the single synthesized pair
carries the fixed placeholder payload, content type `application/pdf`
and filename `placeholder.pdf`. -/
theorem claim_C4 :
    ∀ (inp : BuildInputs) (ids : IdSupply) (b : Bundle), onBuildBundle inp ids = .ok b →
    (b.entry.countP (fun e => e.resource.rtype == "Binary") = max 1 inp.files.length ∧
     b.entry.countP (fun e => e.resource.rtype == "DocumentReference")
       = max 1 inp.files.length) ∧
    (inp.files = [] →
      (b.entry.filter (fun e => e.resource.rtype == "Binary")).map (fun e => e.resource)
        = [Resource.binary (ids.binId 0) "application/pdf" PLACEHOLDER_PDF_B64] ∧
      (b.entry.filter (fun e => e.resource.rtype == "DocumentReference")).map
          (fun e => e.resource)
        = [Resource.documentReference (ids.docId 0) "current" (urn ids.patientId)
            inp.authoredOn ⟨"application/pdf", "placeholder.pdf", urn (ids.binId 0)⟩]) := by
  intro inp ids b h
  obtain ⟨p, _, hb, _⟩ := onBuildBundle_ok_shape h
  subst hb
  refine ⟨⟨?_, ?_⟩, ?_⟩
  · rw [assemble_countP_type p inp ids "Binary", typeList_count_bin inp]
  · rw [assemble_countP_type p inp ids "DocumentReference", typeList_count_dr inp]
  · intro hnil
    exact ⟨by rw [assemble_filter_bin p inp ids, binsSpec_nil inp ids hnil],
      by rw [assemble_filter_dr p inp ids, drsSpec_nil inp ids hnil]⟩

/-- Claim C8: with N >= 1 uploaded files, a successful build carries
exactly N Binary and N DocumentReference entries whose payloads, content
types and filenames come from the files in input order (i-th pair from
the i-th file, with the code's defaults for empty type/name). -/
theorem claim_C8 :
    ∀ (inp : BuildInputs) (ids : IdSupply) (b : Bundle), inp.files ≠ [] →
    onBuildBundle inp ids = .ok b →
    (∀ f ∈ inp.files, fileToBase64 f = .ok (readData f)) ∧
    (b.entry.filter (fun e => e.resource.rtype == "Binary")).map (fun e => e.resource)
      = inp.files.enum.map (fun x => Resource.binary (ids.binId x.1)
          (if x.2.type != "" then x.2.type else "application/pdf") (readData x.2)) ∧
    (b.entry.filter (fun e => e.resource.rtype == "DocumentReference")).map
        (fun e => e.resource)
      = inp.files.enum.map (fun x => Resource.documentReference (ids.docId x.1) "current"
          (urn ids.patientId) inp.authoredOn
          ⟨(if x.2.type != "" then x.2.type else "application/pdf"),
           (if x.2.name != "" then x.2.name else "placeholder.pdf"),
           urn (ids.binId x.1)⟩) := by
  intro inp ids b hne hok
  obtain ⟨p, _, hb, hreads⟩ := onBuildBundle_ok_shape hok
  subst hb
  refine ⟨?_, ?_, ?_⟩
  · intro f hf
    cases hr : f.readResult with
    | none => exact absurd hr (hreads f hf)
    | some res => simp [fileToBase64, hr, readData]
  · rw [assemble_filter_bin p inp ids, binsSpec_files inp ids hne]
  · rw [assemble_filter_dr p inp ids, drsSpec_files inp ids hne]

/-- Claim C9: a failed read of a selected file rejects with the distinct
message `File read error` and the whole build fails with that error —
the placeholder payload is never silently substituted for a selected
file, since no bundle is produced at all. -/
theorem claim_C9 :
    ∀ (inp : BuildInputs) (ids : IdSupply) (f : JsFile),
    f ∈ inp.files → f.readResult = none →
    fileToBase64 f = .error "File read error" ∧
    (∀ p, inp.selectedPatient = some p → jsTrim inp.title ≠ "" → inp.status ≠ "" →
      onBuildBundle inp ids = .error "File read error" ∧
      ∀ b, onBuildBundle inp ids ≠ .ok b) := by
  intro inp ids f hf hfail
  constructor
  · simp [fileToBase64, hfail]
  · intro p hp ht hs
    have hne : inp.files ≠ [] := by
      intro h0
      rw [h0] at hf
      exact absurd hf (List.not_mem_nil f)
    have htne : inp.title ≠ "" := fun h0 => ht (by rw [h0]; rfl)
    have herr : buildDocAndBinaryResources inp.authoredOn ids.patientId ids.binId ids.docId
        0 (docsToProcess inp) = .error "File read error" := by
      refine buildDocs_error_of_fail _ _ _ _ _ _ f ?_ hfail
      unfold docsToProcess
      rw [if_neg (by simp [hne])]
      exact List.mem_map_of_mem some hf
    have hres : onBuildBundle inp ids = .error "File read error" := by
      unfold onBuildBundle
      rw [hp]
      dsimp only
      rw [if_neg (by simp [htne, ht]), if_neg (by simp [hs]), herr]
    refine ⟨hres, fun b hb => ?_⟩
    rw [hres] at hb
    exact absurd hb (by simp)

/- ------------------------------- Witnesses ------------------------------- -/

/-- Fallback bundle for extracting a concrete successful result. -/
def dummyBundle : Bundle :=
  { id := "", identifierValue := "", btype := "", timestamp := "", entry := [] }

/-- The concrete bundle a zero-file example build produces. -/
def exBundle : Bundle := (onBuildBundle exInputs exIds).toOption.getD dummyBundle

/-- An example uploaded file whose read succeeded. -/
def exFile : JsFile :=
  { name := "report.pdf", type := "application/pdf",
    readResult := some "data:application/pdf;base64,QUJD" }

/-- Example form state with one uploaded file. -/
def exInputsFiles : BuildInputs := { exInputs with files := [exFile] }

/-- The concrete bundle the one-file example build produces. -/
def exBundleF : Bundle := (onBuildBundle exInputsFiles exIds).toOption.getD dummyBundle

/-- An example selected file whose read failed. -/
def exFileBad : JsFile := { name := "bad.pdf", type := "application/pdf", readResult := none }

/-- Example invoice-variant form state. -/
def exInvInputs : InvoiceInputs :=
  { selectedPatientIdx := some 0, patients := [exPatient], selectedAbha := "a@x",
    practitioner := exPractitioner, invoiceNumber := "INV-1", invoiceDate := "2025-08-30",
    invoiceType := "healthcare", nowIso := "2025-08-30T09:34:05.000Z",
    nowTag := "1756543445000" }

/-- Example invoice-variant id supply. -/
def exInvIds : InvIdSupply :=
  { patientId := "ipP", compId := "ipC", practitionerId := "ipR", orgId := "ipO",
    invoiceId := "ipI", bundleId := "ipB" }

/-- The concrete bundle the example invoice build produces. -/
def exInvBundle : Bundle := (buildBundle (fun _ => none) exInvInputs exInvIds).toOption.getD
  dummyBundle

/-- Claim C1 witness: both concrete example bundles are resolvable with
duplicate-free ids. -/
theorem claim_C1_witness :
    (resolvable exBundle ∧ nodupIds exBundle) ∧
    (resolvable exInvBundle ∧ nodupIds exInvBundle) :=
  ⟨claim_C1.1 exInputs exIds exBundle (by decide) rfl,
   claim_C1.2 (fun _ => none) exInvInputs exInvIds exInvBundle (by decide) rfl⟩

/-- Claim C3 witness: the concrete example build's entry order. -/
theorem claim_C3_witness :
    exBundle.entry.map (fun e => e.resource.rtype) = typeList exInputs ∧
    exBundle.entry.map (fun e => e.fullUrl) = (usedIds exInputs exIds).map urn :=
  claim_C3 exInputs exIds exBundle rfl

/-- Claim C4 witness: the zero-file example build has exactly one
placeholder DocumentReference/Binary pair. -/
theorem claim_C4_witness :
    (exBundle.entry.countP (fun e => e.resource.rtype == "Binary")
        = max 1 exInputs.files.length ∧
      exBundle.entry.countP (fun e => e.resource.rtype == "DocumentReference")
        = max 1 exInputs.files.length) ∧
    ((exBundle.entry.filter (fun e => e.resource.rtype == "Binary")).map
        (fun e => e.resource)
        = [Resource.binary (exIds.binId 0) "application/pdf" PLACEHOLDER_PDF_B64] ∧
      (exBundle.entry.filter (fun e => e.resource.rtype == "DocumentReference")).map
          (fun e => e.resource)
        = [Resource.documentReference (exIds.docId 0) "current" (urn exIds.patientId)
            exInputs.authoredOn
            ⟨"application/pdf", "placeholder.pdf", urn (exIds.binId 0)⟩]) := by
  have h := claim_C4 exInputs exIds exBundle rfl
  exact ⟨h.1, h.2 rfl⟩

/-- Claim C8 witness: the one-file example build's pair comes from the
uploaded file. -/
theorem claim_C8_witness :
    (∀ f ∈ exInputsFiles.files, fileToBase64 f = .ok (readData f)) ∧
    (exBundleF.entry.filter (fun e => e.resource.rtype == "Binary")).map
        (fun e => e.resource)
      = exInputsFiles.files.enum.map (fun x => Resource.binary (exIds.binId x.1)
          (if x.2.type != "" then x.2.type else "application/pdf") (readData x.2)) ∧
    (exBundleF.entry.filter (fun e => e.resource.rtype == "DocumentReference")).map
        (fun e => e.resource)
      = exInputsFiles.files.enum.map (fun x => Resource.documentReference (exIds.docId x.1)
          "current" (urn exIds.patientId) exInputsFiles.authoredOn
          ⟨(if x.2.type != "" then x.2.type else "application/pdf"),
           (if x.2.name != "" then x.2.name else "placeholder.pdf"),
           urn (exIds.binId x.1)⟩) :=
  claim_C8 exInputsFiles exIds exBundleF (by decide) rfl

/-- Claim C9 witness: with a failing file selected, the concrete build
rejects with the distinct read error and produces no bundle. -/
theorem claim_C9_witness :
    fileToBase64 exFileBad = .error "File read error" ∧
    onBuildBundle { exInputs with files := [exFileBad] } exIds
      = .error "File read error" := by
  have h := claim_C9 { exInputs with files := [exFileBad] } exIds exFileBad
    (by decide) rfl
  exact ⟨h.1, (h.2 exPatient rfl (by decide) (by decide)).1⟩
